import Mathlib

/-!
# Verification of the drkr raster document engine

Shallow embedding of the Rust backend of the drkr layered raster image
editor (`src/src-tauri/src`), covering the Document/Layer data model, the
pixel-buffer store, the crop/expand geometry transform, the Porter-Duff
compositing primitive, brush stamping, and the DRKR container codec.

Modelling conventions:
* `u8`/`u32` values are `Nat`; `i32`/`i64` values are `Int`.  The widths
  involved never overflow in the scenarios of interest, except where a
  cast's wrapping behaviour matters (`intToUsize` models Rust's wrapping
  `as usize` cast).
* `f64` arithmetic is modelled by exact rational arithmetic (`ℚ`).  The
  `as u8` saturating-truncating float-to-int cast is `f64ToU8`.  The one
  irrational operation, `f64::sqrt` in the brush distance computation, is
  abstracted as an explicit distance function parameter.
* `HashMap<String, V>` is an association list `List (String × V)` with
  `mapGet`/`mapInsert`; `mapInsert` keeps keys unique.
* Generated UUIDs and `chrono` timestamps are nondeterministic inputs, so
  the corresponding operations take them as explicit parameters.
* zip archive access and JSON (de)serialisation are abstracted: a DRKR
  archive is a structured record of its entries, and the WebP codec is an
  explicit encode/decode parameter pair.
-/

namespace Drkr

/-- Association-list lookup modelling `HashMap::get` (also used for the
`find`-by-id patterns on layer vectors). -/
def mapGet {α : Type} (m : List (String × α)) (k : String) : Option α :=
  (m.find? (fun p => p.1 == k)).map (fun p => p.2)

/-- Association-list insert modelling `HashMap::insert`: the new binding
shadows and removes any previous binding of the same key. -/
def mapInsert {α : Type} (m : List (String × α)) (k : String) (v : α) :
    List (String × α) :=
  (k, v) :: m.filter (fun p => !(p.1 == k))

/-- `error.rs`: the `AppError` taxonomy (string payloads as in the source). -/
inductive AppError where
  | documentNotFound (id : String)
  | layerNotFound (id : String)
  | invalidOperation (reason : String)
  | fileError (reason : String)
  | imageError (reason : String)
  | aiError (reason : String)
  | ioError (reason : String)
  | serializationError (reason : String)
deriving DecidableEq, Repr

/-- `engine/layer.rs`: `LayerType`. -/
inductive LayerType where
  | raster
  | adjustment
  | group
  | text
  | shape
deriving DecidableEq, Repr

/-- `engine/layer.rs`: `BlendMode` (16 named modes). -/
inductive BlendMode where
  | normal
  | multiply
  | screen
  | overlay
  | darken
  | lighten
  | colorDodge
  | colorBurn
  | hardLight
  | softLight
  | difference
  | exclusion
  | hue
  | saturation
  | color
  | luminosity
deriving DecidableEq, Repr

/-- `engine/layer.rs`: `Layer`.  `opacity : u8`, `x y : i32`,
`width height : u32`. -/
structure Layer where
  id : String
  name : String
  layer_type : LayerType
  visible : Bool
  locked : Bool
  opacity : Nat
  blend_mode : BlendMode
  x : Int
  y : Int
  width : Nat
  height : Nat
deriving DecidableEq, Repr

/-- `Layer::new_raster` (the generated UUID is the `id` parameter). -/
def Layer.new_raster (id name : String) (width height : Nat) : Layer :=
  { id := id
    name := name
    layer_type := LayerType.raster
    visible := true
    locked := false
    opacity := 100
    blend_mode := BlendMode.normal
    x := 0
    y := 0
    width := width
    height := height }

/-- `engine/layer.rs`: `LayerUpdate`, the per-field-optional patch record. -/
structure LayerUpdate where
  name : Option String
  visible : Option Bool
  locked : Option Bool
  opacity : Option Nat
  blend_mode : Option BlendMode
  x : Option Int
  y : Option Int
deriving DecidableEq, Repr

/-- `Layer::apply_update`: each present field overwrites the layer's field;
a present opacity is clamped with `.min(100)`. -/
def Layer.apply_update (l : Layer) (u : LayerUpdate) : Layer :=
  { l with
    name := match u.name with | some n => n | none => l.name
    visible := match u.visible with | some v => v | none => l.visible
    locked := match u.locked with | some v => v | none => l.locked
    opacity := match u.opacity with | some o => min o 100 | none => l.opacity
    blend_mode := match u.blend_mode with | some b => b | none => l.blend_mode
    x := match u.x with | some v => v | none => l.x
    y := match u.y with | some v => v | none => l.y }

/-- `engine/document.rs`: `Document`.  Timestamps are `i64` milliseconds. -/
structure Document where
  id : String
  name : String
  width : Nat
  height : Nat
  resolution : Nat
  layers : List Layer
  created_at : Int
  modified_at : Int
  source_path : Option String
deriving DecidableEq, Repr

/-- `Document::new` (generated ids and the `now` timestamp are parameters;
`layerId` is the background layer's UUID). -/
def Document.new (docId layerId : String) (name : String)
    (width height resolution : Nat) (now : Int) : Document :=
  { id := docId
    name := name
    width := width
    height := height
    resolution := resolution
    layers := [Layer.new_raster layerId "Background" width height]
    created_at := now
    modified_at := now
    source_path := none }

/-- `commands/crop.rs`: `CropResult`. -/
structure CropResult where
  doc_id : String
  new_width : Nat
  new_height : Nat
  layers_affected : List String
deriving DecidableEq, Repr

/-- `engine/document.rs`: `DocumentManager`.  The history map is a
structural stub holding no state relevant to any claim (spec §3.6) and is
not modelled. -/
structure DocumentManager where
  documents : List (String × Document)
  pixel_data : List (String × List Nat)
deriving DecidableEq

/-- `DocumentManager::new`. -/
def DocumentManager.new : DocumentManager :=
  { documents := [], pixel_data := [] }

/-- `DocumentManager::create`: fresh document with one white background
layer; the background buffer is `width*height*4` bytes of 255. -/
def DocumentManager.create (m : DocumentManager) (docId layerId : String)
    (name : String) (width height resolution : Nat) (now : Int) :
    DocumentManager × Document :=
  let doc := Document.new docId layerId name width height resolution now
  let pd := mapInsert m.pixel_data layerId (List.replicate (width * height * 4) 255)
  ({ documents := mapInsert m.documents docId doc, pixel_data := pd }, doc)

/-- `DocumentManager::get_layer_pixels`. -/
def DocumentManager.get_layer_pixels (m : DocumentManager) (layerId : String) :
    Option (List Nat) :=
  mapGet m.pixel_data layerId

/-- `DocumentManager::set_layer_pixels`: unconditional insert, no length
validation. -/
def DocumentManager.set_layer_pixels (m : DocumentManager) (layerId : String)
    (pixels : List Nat) : DocumentManager :=
  { m with pixel_data := mapInsert m.pixel_data layerId pixels }

/-- `DocumentManager::add_layer_to_document`: requires the document to
exist, allocates a transparent `width*height*4` buffer, appends the new
raster layer (`Document::add_layer` marks the document modified). -/
def DocumentManager.add_layer_to_document (m : DocumentManager)
    (docId layerId name : String) (width height : Nat) (now : Int) :
    Except AppError (DocumentManager × Layer) :=
  match mapGet m.documents docId with
  | none => .error (.documentNotFound docId)
  | some doc =>
    let layer := Layer.new_raster layerId name width height
    let pd := mapInsert m.pixel_data layerId (List.replicate (width * height * 4) 0)
    let doc' := { doc with layers := doc.layers ++ [layer], modified_at := now }
    .ok ({ documents := mapInsert m.documents docId doc', pixel_data := pd }, layer)

/-- `commands/layer.rs::add_layer`: the new layer takes the document's
current dimensions. -/
def addLayerCmd (m : DocumentManager) (docId layerId name : String) (now : Int) :
    Except AppError (DocumentManager × Layer) :=
  match mapGet m.documents docId with
  | none => .error (.documentNotFound docId)
  | some doc => m.add_layer_to_document docId layerId name doc.width doc.height now

/-- `DocumentManager::register_loaded_document` (DRKR load path): bulk
insert of an externally assembled document and its pixel map. -/
def DocumentManager.register_loaded_document (m : DocumentManager)
    (doc : Document) (layer_pixels : List (String × List Nat)) :
    DocumentManager :=
  { documents := mapInsert m.documents doc.id doc
    pixel_data := layer_pixels.foldl (fun acc p => mapInsert acc p.1 p.2) m.pixel_data }

/-- `DocumentManager::crop_layer_pixels`: remap one layer's buffer to the
new canvas rectangle.  The imperative double loop fills a zeroed
`new_width*new_height*4` vector; each destination byte index `i` encodes
destination pixel `(new_x, new_y) = ((i % (new_width*4)) / 4, i / (new_width*4))`
and channel `i % 4`, matching the source's
`new_idx = (new_y * new_width + new_x) * 4`.  Both bounds guards of the
source are kept. -/
def cropLayerPixels (old_pixels : List Nat) (old_width old_height : Nat)
    (layer_x layer_y crop_x crop_y : Int) (new_width new_height : Nat) :
    List Nat :=
  (List.range (new_width * new_height * 4)).map (fun i =>
    let new_y : Int := (i / (new_width * 4) : Nat)
    let new_x : Int := ((i % (new_width * 4)) / 4 : Nat)
    let doc_x := crop_x + new_x
    let doc_y := crop_y + new_y
    let old_layer_x := doc_x - layer_x
    let old_layer_y := doc_y - layer_y
    if 0 ≤ old_layer_x ∧ old_layer_x < (old_width : Int) ∧
        0 ≤ old_layer_y ∧ old_layer_y < (old_height : Int) then
      let old_idx := (old_layer_y.toNat * old_width + old_layer_x.toNat) * 4
      let new_idx := i - i % 4
      if old_idx + 3 < old_pixels.length ∧ new_idx + 3 < new_width * new_height * 4 then
        old_pixels.getD (old_idx + i % 4) 0
      else 0
    else 0)

/-- One step of the per-layer loop body of `DocumentManager::crop_document`:
remap the buffer (defaulting a missing buffer to a zeroed
`width*height*4` one) using the layer's *old* origin, then move the layer
to `(x - crop_x, y - crop_y)` with size `new_width × new_height`. -/
def cropLayerStep (crop_x crop_y : Int) (new_width new_height : Nat)
    (acc : List (String × List Nat) × List Layer × List String)
    (layer : Layer) : List (String × List Nat) × List Layer × List String :=
  let old_pixels := (mapGet acc.1 layer.id).getD
    (List.replicate (layer.width * layer.height * 4) 0)
  let new_pixels := cropLayerPixels old_pixels layer.width layer.height
    layer.x layer.y crop_x crop_y new_width new_height
  let layer' := { layer with
    x := layer.x - crop_x
    y := layer.y - crop_y
    width := new_width
    height := new_height }
  (mapInsert acc.1 layer.id new_pixels, acc.2.1 ++ [layer'], acc.2.2 ++ [layer.id])

/-- `DocumentManager::crop_document`. -/
def DocumentManager.crop_document (m : DocumentManager) (docId : String)
    (crop_x crop_y : Int) (new_width new_height : Nat) (now : Int) :
    Except AppError (DocumentManager × CropResult) :=
  match mapGet m.documents docId with
  | none => .error (.documentNotFound docId)
  | some doc =>
    let r := doc.layers.foldl (cropLayerStep crop_x crop_y new_width new_height)
      (m.pixel_data, [], [])
    let doc' := { doc with
      layers := r.2.1
      width := new_width
      height := new_height
      modified_at := now }
    .ok ({ documents := mapInsert m.documents docId doc', pixel_data := r.1 },
      { doc_id := docId
        new_width := new_width
        new_height := new_height
        layers_affected := r.2.2 })

/-- `commands/crop.rs::crop_document`: validates nonzero target size before
delegating to the engine. -/
def cropDocumentCmd (m : DocumentManager) (docId : String) (x y : Int)
    (width height : Nat) (now : Int) :
    Except AppError (DocumentManager × CropResult) :=
  if width = 0 ∨ height = 0 then
    .error (.invalidOperation "Crop dimensions must be greater than zero")
  else m.crop_document docId x y width height now

/-- Find-and-patch of `commands/layer.rs::update_layer`'s
`get_layer_mut` + `apply_update`: patch the first layer whose id matches,
returning the new list and the patched layer. -/
def updateLayersFirst (layerId : String) (u : LayerUpdate) :
    List Layer → Option (List Layer × Layer)
  | [] => none
  | l :: rest =>
    if l.id = layerId then
      some (Layer.apply_update l u :: rest, Layer.apply_update l u)
    else
      (updateLayersFirst layerId u rest).map (fun p => (l :: p.1, p.2))

/-- `commands/layer.rs::update_layer`: patches a layer in place; note that
it does not touch `modified_at`, the canvas, or the pixel store. -/
def updateLayerCmd (m : DocumentManager) (docId layerId : String)
    (u : LayerUpdate) : Except AppError (DocumentManager × Layer) :=
  match mapGet m.documents docId with
  | none => .error (.documentNotFound docId)
  | some doc =>
    match updateLayersFirst layerId u doc.layers with
    | none => .error (.layerNotFound layerId)
    | some p =>
      let doc' := { doc with layers := p.1 }
      .ok ({ m with documents := mapInsert m.documents docId doc' }, p.2)

/-- RFC 4648 standard base64 alphabet. -/
def base64Chars : List Char :=
  "ABCDEFGHIJKLMNOPQRSTUVWXYZabcdefghijklmnopqrstuvwxyz0123456789+/".toList

/-- Character of one 6-bit group. -/
def base64Char (n : Nat) : Char := base64Chars.getD n 'A'

/-- Standard base64 with padding, three input bytes per four output
characters, modelling `base64::engine::general_purpose::STANDARD.encode`. -/
def base64EncodeGroups : List Nat → List Char
  | [] => []
  | [b0] =>
    [base64Char (b0 / 4), base64Char (b0 % 4 * 16), '=', '=']
  | [b0, b1] =>
    [base64Char (b0 / 4), base64Char (b0 % 4 * 16 + b1 / 16),
      base64Char (b1 % 16 * 4), '=']
  | b0 :: b1 :: b2 :: rest =>
    base64Char (b0 / 4) :: base64Char (b0 % 4 * 16 + b1 / 16) ::
      base64Char (b1 % 16 * 4 + b2 / 64) :: base64Char (b2 % 64) ::
      base64EncodeGroups rest

/-- `STANDARD.encode` as a `String`. -/
def base64Encode (bs : List Nat) : String := String.mk (base64EncodeGroups bs)

/-- `commands/layer.rs::get_layer_pixels`: a pure store lookup keyed only by
layer id; a missing buffer is `LayerNotFound` even if the layer record
exists in some document. -/
def getLayerPixelsCmd (m : DocumentManager) (layerId : String) :
    Except AppError (List Nat) :=
  match m.get_layer_pixels layerId with
  | some px => .ok px
  | none => .error (.layerNotFound layerId)

/-- `commands/layer.rs::get_layer_pixels_base64`. -/
def getLayerPixelsBase64Cmd (m : DocumentManager) (layerId : String) :
    Except AppError String :=
  match m.get_layer_pixels layerId with
  | some px => .ok (base64Encode px)
  | none => .error (.layerNotFound layerId)

/-- Rust's `f64 as u8` cast (and equivalently `.clamp(0.0, 255.0) as u8`):
saturate to `[0, 255]` and truncate toward zero. -/
def f64ToU8 (q : ℚ) : Nat := (min (max ⌊q⌋ 0) 255).toNat

/-- `commands/brush.rs::blend_pixel`: Porter-Duff source-over on one pixel,
destination channels `(d0, d1, d2, d3)` (R,G,B,A bytes) and pre-scaled
source `(src_r, src_g, src_b, src_a)`.  The `f64` arithmetic of the
source is modelled by exact rational arithmetic. -/
def blendPixel (d0 d1 d2 d3 : Nat) (src_r src_g src_b src_a : Nat) :
    Nat × Nat × Nat × Nat :=
  if src_a = 0 then (d0, d1, d2, d3)
  else
    let src_alpha : ℚ := (src_a : ℚ) / 255
    let dst_alpha : ℚ := (d3 : ℚ) / 255
    let out_alpha := src_alpha + dst_alpha * (1 - src_alpha)
    if out_alpha ≤ 0 then (0, 0, 0, 0)
    else
      let sr : ℚ := (src_r : ℚ) / 255
      let sg : ℚ := (src_g : ℚ) / 255
      let sb : ℚ := (src_b : ℚ) / 255
      let dr : ℚ := (d0 : ℚ) / 255
      let dg : ℚ := (d1 : ℚ) / 255
      let db : ℚ := (d2 : ℚ) / 255
      let out_r := (sr * src_alpha + dr * dst_alpha * (1 - src_alpha)) / out_alpha
      let out_g := (sg * src_alpha + dg * dst_alpha * (1 - src_alpha)) / out_alpha
      let out_b := (sb * src_alpha + db * dst_alpha * (1 - src_alpha)) / out_alpha
      (f64ToU8 (out_r * 255), f64ToU8 (out_g * 255), f64ToU8 (out_b * 255),
        f64ToU8 (out_alpha * 255))

/-- Rounding to the nearest integer then clamping to `[0, 255]`: the
conversion asserted by the specification's "rounded and clamped to 8-bit". -/
def u8Round (q : ℚ) : Nat := (min (max (round q) 0) 255).toNat

/-- Transcription of the specification's compositing contract (C3), *not*
of the source: `out_a = src_a + dst_a*(1-src_a)`; per colour channel
`out_c = (src_c*src_a + dst_c*dst_a*(1-src_a)) / out_a`, with
`out_c = out_a = 0` when `out_a = 0`; result rounded and clamped to 8 bits. -/
def blendPixelSpec (d0 d1 d2 d3 : Nat) (src_r src_g src_b src_a : Nat) :
    Nat × Nat × Nat × Nat :=
  let src_alpha : ℚ := (src_a : ℚ) / 255
  let dst_alpha : ℚ := (d3 : ℚ) / 255
  let out_alpha := src_alpha + dst_alpha * (1 - src_alpha)
  if out_alpha = 0 then (0, 0, 0, 0)
  else
    let out_r := ((src_r : ℚ) / 255 * src_alpha + (d0 : ℚ) / 255 * dst_alpha * (1 - src_alpha)) / out_alpha
    let out_g := ((src_g : ℚ) / 255 * src_alpha + (d1 : ℚ) / 255 * dst_alpha * (1 - src_alpha)) / out_alpha
    let out_b := ((src_b : ℚ) / 255 * src_alpha + (d2 : ℚ) / 255 * dst_alpha * (1 - src_alpha)) / out_alpha
    (u8Round (out_r * 255), u8Round (out_g * 255), u8Round (out_b * 255),
      u8Round (out_alpha * 255))

/-- The amended compositing contract: identical formulas, but the result is
*truncated* (floored) after clamping rather than rounded, and a source with
`src_a = 0` leaves the destination bytes unchanged (in particular, when
both alphas are 0 the destination's colour bytes are preserved, not
zeroed). -/
def blendPixelAmendedSpec (d0 d1 d2 d3 : Nat) (src_r src_g src_b src_a : Nat) :
    Nat × Nat × Nat × Nat :=
  if src_a = 0 then (d0, d1, d2, d3)
  else
    let src_alpha : ℚ := (src_a : ℚ) / 255
    let dst_alpha : ℚ := (d3 : ℚ) / 255
    let out_alpha := src_alpha + dst_alpha * (1 - src_alpha)
    let out_r := ((src_r : ℚ) / 255 * src_alpha + (d0 : ℚ) / 255 * dst_alpha * (1 - src_alpha)) / out_alpha
    let out_g := ((src_g : ℚ) / 255 * src_alpha + (d1 : ℚ) / 255 * dst_alpha * (1 - src_alpha)) / out_alpha
    let out_b := ((src_b : ℚ) / 255 * src_alpha + (d2 : ℚ) / 255 * dst_alpha * (1 - src_alpha)) / out_alpha
    (f64ToU8 (out_r * 255), f64ToU8 (out_g * 255), f64ToU8 (out_b * 255),
      f64ToU8 (out_alpha * 255))

/-- `commands/brush.rs::BrushStrokePoint` (coordinates and pressure are
`f64`, modelled as `ℚ`). -/
structure BrushStrokePoint where
  x : ℚ
  y : ℚ
  pressure : Option ℚ
  timestamp : Nat

/-- `commands/brush.rs::BrushStrokeSettings`. -/
structure BrushStrokeSettings where
  size : ℚ
  hardness : ℚ
  opacity : ℚ
  flow : ℚ
  spacing : ℚ

/-- `commands/brush.rs::BrushColor`. -/
structure BrushColor where
  r : Nat
  g : Nat
  b : Nat
  a : ℚ

/-- The effective per-pixel brush alpha of `apply_brush_stamp` as a
function of the computed distance `d` from the stamp centre: 0 beyond the
radius, the base opacity inside the inner (hard) disk, quadratic falloff in
the band between, and 0 whenever the computed alpha is not positive (the
`continue` guards of the source). -/
def brushAlpha (s : BrushStrokeSettings) (pressure : ℚ) (d : ℚ) : ℚ :=
  let radius := s.size / 2
  let base_opacity := s.opacity / 100 * (s.flow / 100) * pressure
  let hardness := s.hardness / 100
  let inner_radius := radius * hardness
  let falloff_range := radius - inner_radius
  if radius < d then 0
  else
    let alpha :=
      if d ≤ inner_radius then base_opacity
      else if 0 < falloff_range then
        base_opacity * (1 - (d - inner_radius) / falloff_range) *
          (1 - (d - inner_radius) / falloff_range)
      else base_opacity
    if alpha ≤ 0 then 0 else alpha

/-- Rust's `i32 as usize` cast: wrap modulo `2^64`. -/
def intToUsize (i : Int) : Nat := (i % (2 ^ 64 : Int)).toNat

/-- `commands/brush.rs::apply_brush_stamp`.  `dist px py` stands for the
`f64` value `sqrt(dx*dx + dy*dy)` computed by the source for pixel
`(px, py)` — the sole irrational operation, abstracted as a parameter; all
other arithmetic is the source's, in exact rationals.  The skip conditions
`dist > radius` and `alpha <= 0` are exactly the cases with
`brushAlpha = 0`. -/
def applyBrushStamp (dist : Nat → Nat → ℚ) (pixels : List Nat)
    (layer_width layer_height : Nat) (layer_x layer_y : Int)
    (point : BrushStrokePoint) (s : BrushStrokeSettings) (c : BrushColor)
    (is_eraser : Bool) : List Nat :=
  let radius := s.size / 2
  let pressure := point.pressure.getD 1
  let brush_x := point.x - (layer_x : ℚ)
  let brush_y := point.y - (layer_y : ℚ)
  let min_x := intToUsize (max ⌊brush_x - radius⌋ 0)
  let max_x := intToUsize (min ⌈brush_x + radius⌉ ((layer_width : Int) - 1))
  let min_y := intToUsize (max ⌊brush_y - radius⌋ 0)
  let max_y := intToUsize (min ⌈brush_y + radius⌉ ((layer_height : Int) - 1))
  (List.range' min_y (max_y + 1 - min_y)).foldl (fun acc py =>
    (List.range' min_x (max_x + 1 - min_x)).foldl (fun acc2 px =>
      let alpha := brushAlpha s pressure (dist px py)
      if alpha = 0 then acc2
      else
        let idx := (py * layer_width + px) * 4
        if acc2.length ≤ idx + 3 then acc2
        else if is_eraser then
          let current_alpha : ℚ := (acc2.getD (idx + 3) 0 : ℚ) / 255
          let new_alpha := max (current_alpha * (1 - alpha)) 0
          acc2.set (idx + 3) (f64ToU8 (new_alpha * 255))
        else
          let sa := f64ToU8 (alpha * c.a * 255)
          let r := blendPixel (acc2.getD idx 0) (acc2.getD (idx + 1) 0)
            (acc2.getD (idx + 2) 0) (acc2.getD (idx + 3) 0) c.r c.g c.b sa
          ((((acc2.set idx r.1).set (idx + 1) r.2.1).set
            (idx + 2) r.2.2.1).set (idx + 3) r.2.2.2)) acc) pixels

/-- `commands/brush.rs::apply_brush_stroke`.  Each point carries its
distance oracle (the per-pixel `sqrt` results for that stamp). -/
def applyBrushStroke (m : DocumentManager) (docId layerId : String)
    (points : List (BrushStrokePoint × (Nat → Nat → ℚ)))
    (s : BrushStrokeSettings) (c : BrushColor) (is_eraser : Bool)
    (now : Int) : Except AppError DocumentManager :=
  match mapGet m.documents docId with
  | none => .error (.documentNotFound docId)
  | some doc =>
    match doc.layers.find? (fun l => l.id == layerId) with
    | none => .error (.layerNotFound layerId)
    | some layer =>
      if layer.locked then .error (.invalidOperation "Layer is locked")
      else
        match mapGet m.pixel_data layerId with
        | none => .error (.layerNotFound layerId)
        | some pixels =>
          let pixels' := points.foldl (fun acc pd =>
            applyBrushStamp pd.2 acc layer.width layer.height layer.x layer.y
              pd.1 s c is_eraser) pixels
          let m' := m.set_layer_pixels layerId pixels'
          match mapGet m'.documents docId with
          | some d2 =>
            let d3 := { d2 with modified_at := now }
            .ok { m' with documents := mapInsert m'.documents docId d3 }
          | none => .ok m'

/-- `io/drkr/types.rs::DRKR_MIMETYPE`. -/
def DRKR_MIMETYPE : String := "application/x-drkr"

/-- `io/drkr/types.rs::DRKR_VERSION`. -/
def DRKR_VERSION : String := "1.0"

/-- `io/drkr/types.rs::DrkrGenerator`. -/
structure DrkrGenerator where
  name : String
  version : String
  url : Option String
deriving DecidableEq, Repr

/-- `io/drkr/types.rs::DrkrFileEntry`. -/
structure DrkrFileEntry where
  offset : Nat
  size : Nat
  checksum : Option String
deriving DecidableEq, Repr

/-- `io/drkr/types.rs::DrkrManifest` (`manifest.json`). -/
structure DrkrManifest where
  drkr_version : String
  generator : DrkrGenerator
  created_at : String
  modified_at : String
  files : Option (List (String × DrkrFileEntry))
  extensions_used : Option (List String)
deriving DecidableEq, Repr

/-- `io/drkr/types.rs::DrkrResolution`. -/
structure DrkrResolution where
  value : Nat
  unit : String
deriving DecidableEq, Repr

/-- `io/drkr/types.rs::DrkrColorConfig`. -/
structure DrkrColorConfig where
  space : String
  depth : Nat
  profile : Option String
deriving DecidableEq, Repr

/-- `io/drkr/types.rs::DrkrBackground`. -/
inductive DrkrBackground where
  | transparent
  | color (color : String)
deriving DecidableEq, Repr

/-- `io/drkr/types.rs::DrkrLayerRef`.  The recursive `children` field is
always `None` on the write path and never consumed on the read path, so it
is not modelled. -/
structure DrkrLayerRef where
  id : String
  layer_type : String
  adjustment_id : Option String
deriving DecidableEq, Repr

/-- `io/drkr/types.rs::DrkrGuide`. -/
structure DrkrGuide where
  orientation : String
  position : Int
deriving DecidableEq, Repr

/-- `io/drkr/types.rs::DrkrDocument` (`document.json`; the free-form
`metadata` JSON value is not modelled — always `None` on the write path
and never consumed on the read path). -/
structure DrkrDocument where
  id : String
  name : String
  width : Nat
  height : Nat
  resolution : Option DrkrResolution
  color : DrkrColorConfig
  background : Option DrkrBackground
  layers : List DrkrLayerRef
  guides : Option (List DrkrGuide)
deriving DecidableEq, Repr

/-- `io/drkr/types.rs::DrkrPosition`. -/
structure DrkrPosition where
  x : Int
  y : Int
deriving DecidableEq, Repr

/-- `io/drkr/types.rs::DrkrSize`. -/
structure DrkrSize where
  width : Nat
  height : Nat
deriving DecidableEq, Repr

/-- `io/drkr/types.rs::DrkrTileInfo`. -/
structure DrkrTileInfo where
  columns : Nat
  rows : Nat
  sparse : Bool
  empty_tiles : Option (List String)
deriving DecidableEq, Repr

/-- `io/drkr/types.rs::DrkrStorage`. -/
structure DrkrStorage where
  format : String
  mode : String
  tile_size : Option Nat
  tiles : Option DrkrTileInfo
deriving DecidableEq, Repr

/-- `io/drkr/types.rs::DrkrLayerMeta` (`layers/{id}/meta.json`). -/
structure DrkrLayerMeta where
  id : String
  layer_type : String
  name : String
  visible : Bool
  locked : Bool
  opacity : Nat
  blend_mode : String
  position : DrkrPosition
  size : DrkrSize
  mask_id : Option String
  clipping_mask : Bool
  storage : Option DrkrStorage
  created_at : Option String
  modified_at : Option String
deriving DecidableEq, Repr

/-- `io/drkr/types.rs`: `LayerType` → on-disk string (shared by
`DrkrLayerMeta::from_layer` and `DrkrDocument::from_document`). -/
def layerTypeToString : LayerType → String
  | .raster => "raster"
  | .adjustment => "adjustment"
  | .group => "group"
  | .text => "text"
  | .shape => "shape"

/-- `io/drkr/types.rs`: on-disk string → `LayerType` in
`DrkrLayerMeta::to_layer` (`"ai_generated"` and anything unknown map to
`Raster`). -/
def stringToLayerType (s : String) : LayerType :=
  if s = "raster" then .raster
  else if s = "adjustment" then .adjustment
  else if s = "group" then .group
  else if s = "text" then .text
  else if s = "shape" then .shape
  else if s = "ai_generated" then .raster
  else .raster

/-- `io/drkr/types.rs::blend_mode_to_string`. -/
def blendModeToString : BlendMode → String
  | .normal => "normal"
  | .multiply => "multiply"
  | .screen => "screen"
  | .overlay => "overlay"
  | .darken => "darken"
  | .lighten => "lighten"
  | .colorDodge => "color-dodge"
  | .colorBurn => "color-burn"
  | .hardLight => "hard-light"
  | .softLight => "soft-light"
  | .difference => "difference"
  | .exclusion => "exclusion"
  | .hue => "hue"
  | .saturation => "saturation"
  | .color => "color"
  | .luminosity => "luminosity"

/-- `io/drkr/types.rs::string_to_blend_mode` (unknown strings map to
`Normal`). -/
def stringToBlendMode (s : String) : BlendMode :=
  if s = "normal" then .normal
  else if s = "multiply" then .multiply
  else if s = "screen" then .screen
  else if s = "overlay" then .overlay
  else if s = "darken" then .darken
  else if s = "lighten" then .lighten
  else if s = "color-dodge" then .colorDodge
  else if s = "color-burn" then .colorBurn
  else if s = "hard-light" then .hardLight
  else if s = "soft-light" then .softLight
  else if s = "difference" then .difference
  else if s = "exclusion" then .exclusion
  else if s = "hue" then .hue
  else if s = "saturation" then .saturation
  else if s = "color" then .color
  else if s = "luminosity" then .luminosity
  else .normal

/-- `DrkrLayerMeta::from_layer`. -/
def DrkrLayerMeta.from_layer (l : Layer) : DrkrLayerMeta :=
  { id := l.id
    layer_type := layerTypeToString l.layer_type
    name := l.name
    visible := l.visible
    locked := l.locked
    opacity := l.opacity
    blend_mode := blendModeToString l.blend_mode
    position := { x := l.x, y := l.y }
    size := { width := l.width, height := l.height }
    mask_id := none
    clipping_mask := false
    storage := some { format := "webp", mode := "single", tile_size := none, tiles := none }
    created_at := none
    modified_at := none }

/-- `DrkrLayerMeta::to_layer`. -/
def DrkrLayerMeta.to_layer (m : DrkrLayerMeta) : Layer :=
  { id := m.id
    name := m.name
    layer_type := stringToLayerType m.layer_type
    visible := m.visible
    locked := m.locked
    opacity := m.opacity
    blend_mode := stringToBlendMode m.blend_mode
    x := m.position.x
    y := m.position.y
    width := m.size.width
    height := m.size.height }

/-- `DrkrDocument::from_document`. -/
def DrkrDocument.from_document (doc : Document) : DrkrDocument :=
  { id := doc.id
    name := doc.name
    width := doc.width
    height := doc.height
    resolution := some { value := doc.resolution, unit := "ppi" }
    color := { space := "srgb", depth := 8, profile := none }
    background := some DrkrBackground.transparent
    layers := doc.layers.map (fun l =>
      { id := l.id
        layer_type := layerTypeToString l.layer_type
        adjustment_id := none })
    guides := none }

/-- The abstract DRKR archive: the structured content of the zip entries
(zip framing, JSON text and the preview payloads are abstracted away; the
preview entries are written but never consumed by `read_all`). -/
structure Archive where
  mimetype : String
  manifest : DrkrManifest
  document : DrkrDocument
  layerMetas : List (String × DrkrLayerMeta)
  layerPixels : List (String × List Nat)

/-- The WebP pixel codec boundary: `encode` models the successful output
of `encode_rgba_to_webp` after its dimension check, `decode` models
`decode_webp_to_rgba` (`none` = decode failure). -/
structure Codec where
  encode : List Nat → Nat → Nat → List Nat
  decode : List Nat → Option (List Nat)

/-- A codec mode is lossless when decoding an encoded well-formed RGBA
buffer returns exactly the input bytes. -/
def Codec.Lossless (c : Codec) : Prop :=
  ∀ pixels width height, pixels.length = width * height * 4 →
    c.decode (c.encode pixels width height) = some pixels

/-- Rust `u32::from_str`: optional leading `+`, at least one ASCII digit,
no other characters, value below `2^32` (overflow is an error). -/
def parseU32 (s : String) : Option Nat :=
  let ds := match s.toList with
    | '+' :: rest => rest
    | l => l
  if ds ≠ [] ∧ ds.all Char.isDigit then
    let v := ds.foldl (fun a c => a * 10 + (c.toNat - 48)) 0
    if v < 2 ^ 32 then some v else none
  else none

/-- Rust's `str::trim`: drop leading and trailing whitespace.  (Rust trims
Unicode whitespace and this model trims ASCII whitespace via
`Char.isWhitespace`; the two agree on every string arising here.)  Written
with structural recursion so that it evaluates inside the kernel. -/
def rustTrim (s : String) : String :=
  String.mk
    (((s.toList.dropWhile Char.isWhitespace).reverse.dropWhile
      Char.isWhitespace).reverse)

/-- Rust's `version.split('.').next().unwrap()`: the prefix of the string
before the first `.` (the whole string when there is no dot, the empty
string for the empty input). -/
def majorComponent (s : String) : String :=
  String.mk (s.toList.takeWhile (fun c => c != '.'))

/-- `DrkrReader::validate`'s major-version extraction:
`drkr_version.split('.').next().and_then(parse).unwrap_or(0)`. -/
def majorVersionOf (version : String) : Nat :=
  (parseU32 (majorComponent version)).getD 0

/-- `DrkrReader::validate`: mimetype check (note the `.trim()`) then
major-version check. -/
def DrkrReader.validate (a : Archive) : Except AppError Unit :=
  if rustTrim a.mimetype ≠ DRKR_MIMETYPE then
    .error (.invalidOperation
      ("Invalid DRKR file: expected mimetype '" ++ DRKR_MIMETYPE ++ "', got '"
        ++ rustTrim a.mimetype ++ "'"))
  else if 1 < majorVersionOf a.manifest.drkr_version then
    .error (.invalidOperation
      ("Unsupported DRKR version: " ++ a.manifest.drkr_version))
  else .ok ()

/-- The per-layer-reference loop of `DrkrReader::read_all`: read each
`meta.json` (a missing entry is a hard error), and for `"raster"` /
`"ai_generated"` references decode the pixel payload, substituting a
transparent buffer of the expected size when the payload is missing or
fails to decode. -/
def readLayers (c : Codec) (a : Archive) :
    List DrkrLayerRef → Except AppError (List Layer × List (String × List Nat))
  | [] => .ok ([], [])
  | ref :: rest =>
    match mapGet a.layerMetas ref.id with
    | none => .error (.ioError
        ("File 'layers/" ++ ref.id ++ "/meta.json' not found in archive"))
    | some meta =>
      let layer := meta.to_layer
      (readLayers c a rest).map (fun r =>
        if ref.layer_type = "raster" ∨ ref.layer_type = "ai_generated" then
          let px := match mapGet a.layerPixels ref.id with
            | some payload =>
              match c.decode payload with
              | some b => b
              | none => List.replicate (layer.width * layer.height * 4) 0
            | none => List.replicate (layer.width * layer.height * 4) 0
          (layer :: r.1, (ref.id, px) :: r.2)
        else (layer :: r.1, r.2))

/-- `DrkrReader::read_all`: validate, then rebuild the `Document` (fresh
timestamps — the `now` parameter; the caller sets the source path) and the
layer-id → buffer map. -/
def DrkrReader.read_all (c : Codec) (a : Archive) (now : Int) :
    Except AppError (Document × List (String × List Nat)) :=
  match DrkrReader.validate a with
  | .error e => .error e
  | .ok _ =>
    (readLayers c a a.document.layers).map (fun r =>
      ({ id := a.document.id
         name := a.document.name
         width := a.document.width
         height := a.document.height
         resolution := match a.document.resolution with
           | some res => res.value
           | none => 72
         layers := r.1
         created_at := now
         modified_at := now
         source_path := none }, r.2))

/-- The failure condition of `writer.rs::composite_layers` (used for both
previews): `RgbaImage::from_raw` fails when a visible layer's stored buffer
is smaller than `width*height*4`.  The composited preview bytes themselves
are never read back by `read_all` and are not modelled. -/
def compositeOk (doc : Document) (layer_pixels : List (String × List Nat)) :
    Bool :=
  doc.layers.all (fun l =>
    !l.visible ||
      match mapGet layer_pixels l.id with
      | some px => decide (l.width * l.height * 4 ≤ px.length)
      | none => true)

/-- The per-layer loop of `DrkrWriter::write_document`: for each layer that
has a stored buffer, write its `meta.json` and its encoded pixel payload;
`encode_rgba_to_webp` fails (`InvalidOperation`) when the buffer is smaller
than `width*height*4`. -/
def writeLayers (c : Codec) (layer_pixels : List (String × List Nat)) :
    List Layer →
    Except AppError (List (String × DrkrLayerMeta) × List (String × List Nat))
  | [] => .ok ([], [])
  | l :: rest =>
    match mapGet layer_pixels l.id with
    | none => writeLayers c layer_pixels rest
    | some px =>
      if l.width * l.height * 4 ≤ px.length then
        (writeLayers c layer_pixels rest).map (fun r =>
          ((l.id, DrkrLayerMeta.from_layer l) :: r.1,
            (l.id, c.encode px l.width l.height) :: r.2))
      else .error (.invalidOperation "Invalid pixel data dimensions")

/-- Generator version string (`env!("CARGO_PKG_VERSION")`); its exact value
is irrelevant to every claim. -/
def cargoPkgVersion : String := "0.1.0"

/-- `DrkrWriter::write_document`: mimetype, manifest (version
`DRKR_VERSION`), `document.json`, both previews (modelled by their failure
condition `compositeOk`), then each layer's metadata and encoded pixels.
`nowStr` is the RFC 3339 timestamp. -/
def DrkrWriter.write_document (c : Codec) (doc : Document)
    (layer_pixels : List (String × List Nat)) (nowStr : String) :
    Except AppError Archive :=
  if compositeOk doc layer_pixels then
    (writeLayers c layer_pixels doc.layers).map (fun r =>
      { mimetype := DRKR_MIMETYPE
        manifest :=
          { drkr_version := DRKR_VERSION
            generator :=
              { name := "Darker"
                version := cargoPkgVersion
                url := some "https://github.com/darker" }
            created_at := nowStr
            modified_at := nowStr
            files := none
            extensions_used := none }
        document := DrkrDocument.from_document doc
        layerMetas := r.1
        layerPixels := r.2 })
  else .error (.invalidOperation "Invalid layer pixel data")

/-- The core buffer-mutating operations of the engine command surface.
Fresh UUIDs and timestamps are carried as data; `setLayerPixels` covers
both the raw and the base64 command (the base64 variant decodes to an
arbitrary byte vector before the same `set_layer_pixels` call). -/
inductive Op where
  | create (docId layerId name : String) (width height resolution : Nat) (now : Int)
  | addLayer (docId layerId name : String) (now : Int)
  | setLayerPixels (layerId : String) (pixels : List Nat)
  | brushStroke (docId layerId : String)
      (points : List (BrushStrokePoint × (Nat → Nat → ℚ)))
      (s : BrushStrokeSettings) (c : BrushColor) (is_eraser : Bool) (now : Int)
  | crop (docId : String) (x y : Int) (width height : Nat) (now : Int)
  | loadDrkr (c : Codec) (a : Archive) (now : Int)

/-- One command dispatch: on error the manager is unchanged (every modelled
command reports its error before mutating any state). -/
def stepOp (m : DocumentManager) : Op → DocumentManager
  | .create docId layerId name w h res now =>
    (m.create docId layerId name w h res now).1
  | .addLayer docId layerId name now =>
    match addLayerCmd m docId layerId name now with
    | .ok p => p.1
    | .error _ => m
  | .setLayerPixels layerId px => m.set_layer_pixels layerId px
  | .brushStroke docId layerId points s c e now =>
    match applyBrushStroke m docId layerId points s c e now with
    | .ok m' => m'
    | .error _ => m
  | .crop docId x y w h now =>
    match cropDocumentCmd m docId x y w h now with
    | .ok p => p.1
    | .error _ => m
  | .loadDrkr c a now =>
    match DrkrReader.read_all c a now with
    | .ok r => m.register_loaded_document r.1 r.2
    | .error _ => m

/-- Run a sequence of operations. -/
def runOps (m : DocumentManager) (ops : List Op) : DocumentManager :=
  ops.foldl stepOp m

/-- One layer's buffer-length condition: if a buffer is stored under the
layer's id, its length is `width*height*4`. -/
def bufLenOk (pd : List (String × List Nat)) (l : Layer) : Bool :=
  match mapGet pd l.id with
  | some buf => buf.length == l.width * l.height * 4
  | none => true

/-- The spec §3 invariant (C6): every buffer stored for a layer of an open
document has length `width*height*4`. -/
def bufferInv (m : DocumentManager) : Prop :=
  ∀ p ∈ m.documents, ∀ l ∈ p.2.layers, bufLenOk m.pixel_data l = true

/-- Side conditions under which one operation preserves `bufferInv` — the
conditions the code itself does not enforce.  Because the pixel store is
keyed by layer id alone, every condition must range over *all* open layers
carrying the relevant id, not only the operation's own document:
* `create` / `addLayer`: the freshly generated layer id collides with no
  layer of any open document;
* `setLayerPixels`: the supplied buffer's length is `width*height*4` for
  every open layer carrying the target id;
* `crop`: the cropped document shares no layer id with a different open
  document (a layer of another document whose id is re-sized by this crop
  would otherwise pick up a buffer of the new size);
* `loadDrkr`: every entry of the loaded pixel map has the
  `width*height*4` size of every layer carrying its id — both in the
  loaded document and in every *other* open document — and every loaded
  layer that receives no pixel entry (non-raster reference types) has no
  previously stored buffer of a different size under its id.
With UUID-generated ids the cross-document collision cases cannot arise in
practice, leaving only the per-call buffer-size requirements. -/
def OpOk (m : DocumentManager) : Op → Prop
  | .create _ layerId _ _ _ _ _ =>
    ∀ p ∈ m.documents, ∀ l ∈ p.2.layers, l.id ≠ layerId
  | .addLayer _ layerId _ _ =>
    ∀ p ∈ m.documents, ∀ l ∈ p.2.layers, l.id ≠ layerId
  | .setLayerPixels layerId px =>
    ∀ p ∈ m.documents, ∀ l ∈ p.2.layers, l.id = layerId →
      px.length = l.width * l.height * 4
  | .brushStroke _ _ _ _ _ _ _ => True
  | .crop docId _ _ _ _ _ =>
    match mapGet m.documents docId with
    | some doc =>
      ∀ p ∈ m.documents, p.1 ≠ docId → ∀ l' ∈ p.2.layers,
        ∀ l ∈ doc.layers, l'.id ≠ l.id
    | none => True
  | .loadDrkr c a now =>
    match DrkrReader.read_all c a now with
    | .ok r =>
      (∀ q ∈ r.2,
        (∀ l ∈ r.1.layers, l.id = q.1 →
          q.2.length = l.width * l.height * 4) ∧
        (∀ p ∈ m.documents, p.1 ≠ r.1.id → ∀ l ∈ p.2.layers, l.id = q.1 →
          q.2.length = l.width * l.height * 4)) ∧
      (∀ l ∈ r.1.layers, l.id ∈ r.2.map Prod.fst ∨
        ∀ buf, mapGet m.pixel_data l.id = some buf →
          buf.length = l.width * l.height * 4)
    | .error _ => True

/-- `OpOk` holds along a whole run. -/
def OpsOk (m : DocumentManager) : List Op → Prop
  | [] => True
  | op :: rest => OpOk m op ∧ OpsOk (stepOp m op) rest

instance instDecBufferInv (m : DocumentManager) : Decidable (bufferInv m) := by
  unfold bufferInv
  infer_instance

instance instDecOpOk (m : DocumentManager) (op : Op) : Decidable (OpOk m op) := by
  cases op with
  | create docId layerId name w h res now =>
    simp only [OpOk]
    infer_instance
  | addLayer docId layerId name now =>
    simp only [OpOk]
    infer_instance
  | setLayerPixels layerId px =>
    simp only [OpOk]
    infer_instance
  | brushStroke docId layerId points s c e now =>
    simp only [OpOk]
    infer_instance
  | crop docId x y w h now =>
    simp only [OpOk]
    cases mapGet m.documents docId with
    | some doc => infer_instance
    | none => infer_instance
  | loadDrkr c a now =>
    simp only [OpOk]
    cases DrkrReader.read_all c a now with
    | ok r => infer_instance
    | error e => infer_instance

instance instDecOpsOk : (m : DocumentManager) → (ops : List Op) →
    Decidable (OpsOk m ops)
  | _, [] => isTrue trivial
  | m, op :: rest =>
    haveI : Decidable (OpsOk (stepOp m op) rest) := instDecOpsOk (stepOp m op) rest
    inferInstanceAs (Decidable (OpOk m op ∧ OpsOk (stepOp m op) rest))

/-! ## Concrete instances used by witnesses and counterexamples -/

/-- An identity pixel codec; it is lossless. -/
def idCodec : Codec :=
  { encode := fun b _ _ => b, decode := fun b => some b }

/-- Brush settings for the brush-alpha witness: size 4 (radius 2),
hardness 50. -/
def c7Settings : BrushStrokeSettings :=
  { size := 4, hardness := 50, opacity := 100, flow := 100, spacing := 0 }

/-- A fresh 1×1 document used for the crop round-trip failing input. -/
def c1Manager : DocumentManager :=
  (DocumentManager.new.create "doc" "bg" "Doc" 1 1 72 0).1

/-- A manager whose document has a layer `"l"` but whose pixel store has no
buffer under `"l"`. -/
def c8Manager : DocumentManager :=
  { documents := [("d", Document.new "d" "l" "Doc" 4 4 72 0)]
    pixel_data := [] }

/-- 2×2 document for the update_layer witness. -/
def c9Doc : Document := Document.new "d" "l" "Doc" 2 2 72 5

/-- Manager for the update_layer witness. -/
def c9M : DocumentManager :=
  { documents := [("d", c9Doc)], pixel_data := [("q", [1, 2, 3])] }

/-- Patch setting an out-of-range opacity and a new x. -/
def c9U : LayerUpdate :=
  { name := none, visible := none, locked := none, opacity := some 250
    blend_mode := none, x := some (-7), y := none }

/-- Expected patched layer: opacity clamped to 100, x moved, rest intact. -/
def c9L : Layer :=
  { Layer.new_raster "l" "Background" 2 2 with opacity := 100, x := -7 }

/-- Expected manager after the update. -/
def c9M2 : DocumentManager :=
  { documents := [("d", { c9Doc with layers := [c9L] })]
    pixel_data := [("q", [1, 2, 3])] }

/-- Layers with varied opacity, blend mode and (negative) positions for the
DRKR round-trip witness. -/
def c2LayerA : Layer :=
  { Layer.new_raster "a" "A" 1 1 with
    x := -5
    y := 3
    opacity := 37
    blend_mode := BlendMode.multiply }

/-- Second round-trip layer (invisible, overfull opacity byte). -/
def c2LayerB : Layer :=
  { Layer.new_raster "b" "B" 2 1 with visible := false, opacity := 200 }

/-- Two-layer document for the DRKR round-trip witness. -/
def c2Doc : Document :=
  { id := "doc1", name := "RT", width := 2, height := 2, resolution := 72
    layers := [c2LayerA, c2LayerB], created_at := 0, modified_at := 0
    source_path := none }

/-- Pixel store for the DRKR round-trip witness. -/
def c2Store : List (String × List Nat) :=
  [("a", [1, 2, 3, 4]), ("b", [5, 6, 7, 8, 9, 10, 11, 12])]

/-- A well-formed manifest carrying format version 1.0. -/
def manifest10 : DrkrManifest :=
  { drkr_version := DRKR_VERSION
    generator := { name := "Darker", version := cargoPkgVersion, url := none }
    created_at := "", modified_at := "", files := none, extensions_used := none }

/-- An empty document descriptor. -/
def emptyDrkrDocument : DrkrDocument :=
  { id := "doc", name := "N", width := 1, height := 1, resolution := none
    color := { space := "srgb", depth := 8, profile := none }
    background := none, layers := [], guides := none }

/-- Archive whose mimetype entry is `application/x-drkr` followed by a
newline — not exactly the required string. -/
def c4Archive : Archive :=
  { mimetype := "application/x-drkr\n"
    manifest := manifest10
    document := emptyDrkrDocument
    layerMetas := []
    layerPixels := [] }

/-- Archive with a plainly wrong mimetype. -/
def c4BadArchive : Archive :=
  { mimetype := "bogus"
    manifest := manifest10
    document := emptyDrkrDocument
    layerMetas := []
    layerPixels := [] }

/-- Archive whose manifest major version component is not numeric. -/
def c10Archive : Archive :=
  { mimetype := DRKR_MIMETYPE
    manifest := { manifest10 with drkr_version := "abc.1" }
    document := emptyDrkrDocument
    layerMetas := []
    layerPixels := [] }

/-- Archive whose manifest version string is empty. -/
def c10ArchiveEmpty : Archive :=
  { mimetype := DRKR_MIMETYPE
    manifest := { manifest10 with drkr_version := "" }
    document := emptyDrkrDocument
    layerMetas := []
    layerPixels := [] }

/-! ## Association-list lemmas -/

theorem mapGet_insert_self {α : Type} (m : List (String × α)) (k : String)
    (v : α) : mapGet (mapInsert m k v) k = some v := by
  simp [mapGet, mapInsert, List.find?]

theorem mapGet_insert_ne {α : Type} (m : List (String × α)) (k k' : String)
    (v : α) (h : k' ≠ k) : mapGet (mapInsert m k v) k' = mapGet m k' := by
  simp only [mapGet, mapInsert]
  rw [List.find?_cons_of_neg]
  · induction m with
    | nil => rfl
    | cons p rest ih =>
      by_cases hp : p.1 = k
      · rw [List.filter_cons_of_neg, List.find?_cons_of_neg]
        · exact ih
        · simp only [hp, beq_iff_eq]
          exact fun he => h he.symm
        · simp [hp]
      · rw [List.filter_cons_of_pos]
        · by_cases hk' : p.1 = k'
          · rw [List.find?_cons_of_pos, List.find?_cons_of_pos] <;> simp [hk']
          · rw [List.find?_cons_of_neg, List.find?_cons_of_neg]
            · exact ih
            · simp [hk']
            · simp [hk']
        · simp [hp]
  · simp only [beq_iff_eq]
    exact fun he => h he.symm

theorem mapGet_eq_some_mem {α : Type} {m : List (String × α)} {k : String}
    {v : α} (h : mapGet m k = some v) : (k, v) ∈ m := by
  simp only [mapGet, Option.map_eq_some'] at h
  obtain ⟨p, hp, hv⟩ := h
  have hmem := List.mem_of_find?_eq_some hp
  have hkey := List.find?_some hp
  simp only [beq_iff_eq] at hkey
  have : p = (k, v) := by
    cases p
    simp only [Prod.mk.injEq]
    exact ⟨hkey, hv⟩
  rwa [this] at hmem

theorem mem_mapInsert {α : Type} {m : List (String × α)} {k : String} {v : α}
    {p : String × α} (h : p ∈ mapInsert m k v) :
    p = (k, v) ∨ (p ∈ m ∧ p.1 ≠ k) := by
  simp only [mapInsert, List.mem_cons, List.mem_filter] at h
  rcases h with h | ⟨hm, hk⟩
  · exact Or.inl h
  · refine Or.inr ⟨hm, ?_⟩
    simpa using hk

theorem mapGet_foldl_insert {α : Type} (l : List (String × α)) :
    ∀ (st : List (String × α)) (k : String) (v : α),
    mapGet (l.foldl (fun acc q => mapInsert acc q.1 q.2) st) k = some v →
    (k, v) ∈ l ∨ ((∀ q ∈ l, q.1 ≠ k) ∧ mapGet st k = some v) := by
  induction l with
  | nil => intro st k v h; exact Or.inr ⟨by simp, h⟩
  | cons q rest ih =>
    intro st k v h
    simp only [List.foldl_cons] at h
    rcases ih (mapInsert st q.1 q.2) k v h with hmem | ⟨hkeys, hget⟩
    · exact Or.inl (List.mem_cons_of_mem _ hmem)
    · by_cases hk : k = q.1
      · subst hk
        rw [mapGet_insert_self] at hget
        obtain rfl : q.2 = v := by injection hget
        exact Or.inl (List.mem_cons_self _ _)
      · rw [mapGet_insert_ne _ _ _ _ hk] at hget
        refine Or.inr ⟨?_, hget⟩
        intro q' hq'
        rcases List.mem_cons.1 hq' with rfl | hmem'
        · exact fun he => hk he.symm
        · exact hkeys q' hmem'

/-! ## Generic fold length preservation -/

theorem foldl_length_eq {β : Type} (f : List Nat → β → List Nat)
    (h : ∀ a b, (f a b).length = a.length) :
    ∀ (l : List β) (a : List Nat), (l.foldl f a).length = a.length := by
  intro l
  induction l with
  | nil => intro a; rfl
  | cons b rest ih => intro a; rw [List.foldl_cons, ih, h]

/-! ## Crop lemmas -/

theorem pixelIdxBound (a b w h : Nat) (ha : a < h) (hb : b < w) :
    (a * w + b) * 4 + 3 < w * h * 4 := by
  have h1 : a * w + b < h * w := by
    calc a * w + b < a * w + w := by omega
    _ = (a + 1) * w := by ring
    _ ≤ h * w := Nat.mul_le_mul_right w (by omega)
  calc (a * w + b) * 4 + 3 < (a * w + b + 1) * 4 := by omega
  _ ≤ (h * w) * 4 := Nat.mul_le_mul_right 4 (by omega)
  _ = w * h * 4 := by ring

theorem cropLayerPixels_length (old_pixels : List Nat) (ow oh : Nat)
    (lx ly cx cy : Int) (nw nh : Nat) :
    (cropLayerPixels old_pixels ow oh lx ly cx cy nw nh).length = nw * nh * 4 := by
  simp [cropLayerPixels]

theorem cropLayerPixels_getD (old_pixels : List Nat) (ow oh : Nat)
    (lx ly cx cy : Int) (nw nh : Nat)
    (hlen : old_pixels.length = ow * oh * 4)
    (nx ny k : Nat) (hx : nx < nw) (hy : ny < nh) (hk : k < 4) :
    (cropLayerPixels old_pixels ow oh lx ly cx cy nw nh).getD
        ((ny * nw + nx) * 4 + k) 0 =
      if 0 ≤ cx + (nx : Int) - lx ∧ cx + (nx : Int) - lx < (ow : Int) ∧
          0 ≤ cy + (ny : Int) - ly ∧ cy + (ny : Int) - ly < (oh : Int) then
        old_pixels.getD
          (((cy + (ny : Int) - ly).toNat * ow + (cx + (nx : Int) - lx).toNat) * 4 + k) 0
      else 0 := by
  have hi : (ny * nw + nx) * 4 + k < nw * nh * 4 := by
    have := pixelIdxBound ny nx nw nh hy hx
    omega
  set i := (ny * nw + nx) * 4 + k with hidef
  have hdiv1 : i / (nw * 4) = ny := by
    have hrw : i = nx * 4 + k + ny * (nw * 4) := by rw [hidef]; ring
    rw [hrw, Nat.add_mul_div_right _ _ (by omega : 0 < nw * 4),
      Nat.div_eq_of_lt (by omega), Nat.zero_add]
  have hmod1 : i % (nw * 4) = nx * 4 + k := by
    have hrw : i = nx * 4 + k + ny * (nw * 4) := by rw [hidef]; ring
    rw [hrw, Nat.add_mul_mod_self_right, Nat.mod_eq_of_lt (by omega)]
  have hdiv2 : i % (nw * 4) / 4 = nx := by rw [hmod1]; omega
  have hmod4 : i % 4 = k := by
    have : i = (ny * nw + nx) * 4 + k := hidef
    generalize ny * nw + nx = q at this
    omega
  rw [cropLayerPixels, List.getD_eq_getElem?_getD, List.getElem?_map,
    List.getElem?_range hi]
  simp only [Option.map_some', Option.getD_some]
  rw [hdiv1, hdiv2, hmod4]
  split
  · next hcond =>
    obtain ⟨hx0, hxw, hy0, hyh⟩ := hcond
    have hbx : (cx + (nx : Int) - lx).toNat < ow := by omega
    have hby : (cy + (ny : Int) - ly).toNat < oh := by omega
    have hguard := pixelIdxBound (cy + (ny : Int) - ly).toNat
      (cx + (nx : Int) - lx).toNat ow oh hby hbx
    have hnewidx : i - k + 3 < nw * nh * 4 := by
      have h4 : i - k = (ny * nw + nx) * 4 := by omega
      rw [h4]
      have := pixelIdxBound ny nx nw nh hy hx
      omega
    rw [if_pos ⟨by omega, hnewidx⟩]
  · rfl

theorem cropFold_layers (cx cy : Int) (nw nh : Nat) (ls : List Layer) :
    ∀ (st : List (String × List Nat)) (L : List Layer) (ids : List String),
    (ls.foldl (cropLayerStep cx cy nw nh) (st, L, ids)).2.1 =
      L ++ ls.map (fun l =>
        { l with x := l.x - cx, y := l.y - cy, width := nw, height := nh }) := by
  induction ls with
  | nil => intro st L ids; simp
  | cons l rest ih =>
    intro st L ids
    rw [List.foldl_cons]
    show (rest.foldl (cropLayerStep cx cy nw nh)
      (cropLayerStep cx cy nw nh (st, L, ids) l)).2.1 = _
    rw [cropLayerStep]
    rw [ih]
    simp

theorem cropFold_pixels (cx cy : Int) (nw nh : Nat) (ls : List Layer) :
    ∀ (st : List (String × List Nat)) (L : List Layer) (ids : List String)
      (k : String) (v : List Nat),
    mapGet (ls.foldl (cropLayerStep cx cy nw nh) (st, L, ids)).1 k = some v →
    ((∃ l ∈ ls, l.id = k) ∧ v.length = nw * nh * 4) ∨
      ((∀ l ∈ ls, l.id ≠ k) ∧ mapGet st k = some v) := by
  induction ls with
  | nil => intro st L ids k v h; exact Or.inr ⟨by simp, h⟩
  | cons l rest ih =>
    intro st L ids k v h
    rw [List.foldl_cons] at h
    rw [show cropLayerStep cx cy nw nh (st, L, ids) l =
      (mapInsert st l.id (cropLayerPixels
          ((mapGet st l.id).getD (List.replicate (l.width * l.height * 4) 0))
          l.width l.height l.x l.y cx cy nw nh),
        L ++ [{ l with x := l.x - cx, y := l.y - cy, width := nw, height := nh }],
        ids ++ [l.id]) from rfl] at h
    rcases ih _ _ _ k v h with ⟨⟨l', hl', hid⟩, hv⟩ | ⟨hne, hget⟩
    · exact Or.inl ⟨⟨l', List.mem_cons_of_mem _ hl', hid⟩, hv⟩
    · by_cases hks : k = l.id
      · subst hks
        rw [mapGet_insert_self] at hget
        refine Or.inl ⟨⟨l, List.mem_cons_self _ _, rfl⟩, ?_⟩
        have := cropLayerPixels_length
          ((mapGet st l.id).getD (List.replicate (l.width * l.height * 4) 0))
          l.width l.height l.x l.y cx cy nw nh
        obtain rfl : _ = v := by injection hget
        exact this
      · rw [mapGet_insert_ne _ _ _ _ hks] at hget
        refine Or.inr ⟨?_, hget⟩
        intro l'' hl''
        rcases List.mem_cons.1 hl'' with rfl | hmem
        · exact fun he => hks he.symm
        · exact hne l'' hmem

/-! ## Brush lemmas -/

theorem applyBrushStamp_length (dist : Nat → Nat → ℚ) (pixels : List Nat)
    (lw lh : Nat) (lx ly : Int) (pt : BrushStrokePoint)
    (s : BrushStrokeSettings) (c : BrushColor) (e : Bool) :
    (applyBrushStamp dist pixels lw lh lx ly pt s c e).length = pixels.length := by
  rw [applyBrushStamp]
  apply foldl_length_eq
  intro a py
  apply foldl_length_eq
  intro a2 px
  dsimp only
  split
  · rfl
  · split
    · rfl
    · split
      · rw [List.length_set]
      · simp only [List.length_set]

theorem brushStrokeFold_length (points : List (BrushStrokePoint × (Nat → Nat → ℚ)))
    (pixels : List Nat) (lw lh : Nat) (lx ly : Int)
    (s : BrushStrokeSettings) (c : BrushColor) (e : Bool) :
    (points.foldl (fun acc pd =>
      applyBrushStamp pd.2 acc lw lh lx ly pd.1 s c e) pixels).length =
      pixels.length := by
  apply foldl_length_eq
  intro a pd
  exact applyBrushStamp_length pd.2 a lw lh lx ly pd.1 s c e

/-! ## DRKR conversion lemmas -/

theorem stringToBlendMode_blendModeToString (b : BlendMode) :
    stringToBlendMode (blendModeToString b) = b := by
  cases b <;> rfl

theorem stringToLayerType_layerTypeToString (t : LayerType) :
    stringToLayerType (layerTypeToString t) = t := by
  cases t <;> rfl

theorem to_layer_from_layer (l : Layer) :
    (DrkrLayerMeta.from_layer l).to_layer = l := by
  rw [DrkrLayerMeta.from_layer, DrkrLayerMeta.to_layer]
  simp [stringToBlendMode_blendModeToString, stringToLayerType_layerTypeToString]

theorem writeLayers_ok (c : Codec) (store : List (String × List Nat))
    (ls : List Layer)
    (hbuf : ∀ l ∈ ls, ∃ px, mapGet store l.id = some px ∧
      px.length = l.width * l.height * 4) :
    writeLayers c store ls = .ok
      (ls.map (fun l => (l.id, DrkrLayerMeta.from_layer l)),
        ls.map (fun l =>
          (l.id, c.encode ((mapGet store l.id).getD []) l.width l.height))) := by
  induction ls with
  | nil => rfl
  | cons l rest ih =>
    obtain ⟨px, hpx, hlen⟩ := hbuf l (List.mem_cons_self _ _)
    rw [writeLayers, hpx]
    dsimp only
    rw [if_pos (le_of_eq hlen.symm),
      ih (fun l' hl' => hbuf l' (List.mem_cons_of_mem _ hl'))]
    simp [Except.map, hpx]

theorem mapGet_cons_self {α : Type} (m : List (String × α)) (k : String)
    (v : α) : mapGet ((k, v) :: m) k = some v := by
  simp [mapGet, List.find?]

theorem mapGet_cons_ne {α : Type} (m : List (String × α)) (k k' : String)
    (v : α) (h : k ≠ k') : mapGet ((k', v) :: m) k = mapGet m k := by
  simp only [mapGet]
  rw [List.find?_cons_of_neg]
  simp only [beq_iff_eq]
  exact fun he => h he.symm

theorem mapGet_map_key {β : Type} (ls : List Layer) (f : Layer → β)
    (hids : (ls.map Layer.id).Nodup) (l : Layer) (hl : l ∈ ls) :
    mapGet (ls.map (fun x => (x.id, f x))) l.id = some (f l) := by
  induction ls with
  | nil => cases hl
  | cons hd rest ih =>
    simp only [List.map_cons] at hids ⊢
    have hnd := List.nodup_cons.1 hids
    rcases List.mem_cons.1 hl with rfl | hmem
    · exact mapGet_cons_self _ _ _
    · have hne : l.id ≠ hd.id := by
        intro he
        exact hnd.1 (he ▸ List.mem_map_of_mem Layer.id hmem)
      rw [mapGet_cons_ne _ _ _ _ hne]
      exact ih hnd.2 hmem

theorem readLayers_roundtrip (c : Codec) (a : Archive) (g : Layer → List Nat)
    (ls : List Layer)
    (hmeta : ∀ l ∈ ls, mapGet a.layerMetas l.id = some (DrkrLayerMeta.from_layer l))
    (htype : ∀ l ∈ ls, l.layer_type = LayerType.raster)
    (hpix : ∀ l ∈ ls, ∃ payload, mapGet a.layerPixels l.id = some payload ∧
      c.decode payload = some (g l)) :
    readLayers c a (ls.map (fun l =>
      { id := l.id, layer_type := layerTypeToString l.layer_type,
        adjustment_id := none })) =
      .ok (ls, ls.map (fun l => (l.id, g l))) := by
  induction ls with
  | nil => rfl
  | cons l rest ih =>
    obtain ⟨payload, hpay, hdec⟩ := hpix l (List.mem_cons_self _ _)
    rw [List.map_cons, readLayers, hmeta l (List.mem_cons_self _ _)]
    dsimp only
    rw [ih (fun x hx => hmeta x (List.mem_cons_of_mem _ hx))
      (fun x hx => htype x (List.mem_cons_of_mem _ hx))
      (fun x hx => hpix x (List.mem_cons_of_mem _ hx))]
    rw [htype l (List.mem_cons_self _ _)]
    simp [Except.map, hpay, hdec, to_layer_from_layer, layerTypeToString]

/-! ## update_layer lemmas -/

theorem updateLayersFirst_spec (layerId : String) (u : LayerUpdate) :
    ∀ (ls ls' : List Layer) (l' : Layer),
    updateLayersFirst layerId u ls = some (ls', l') →
    ∃ pre layer post, ls = pre ++ layer :: post ∧
      ls' = pre ++ Layer.apply_update layer u :: post ∧
      (∀ x ∈ pre, x.id ≠ layerId) ∧ layer.id = layerId ∧
      l' = Layer.apply_update layer u := by
  intro ls
  induction ls with
  | nil => intro ls' l' h; cases h
  | cons hd rest ih =>
    intro ls' l' h
    rw [updateLayersFirst] at h
    by_cases hid : hd.id = layerId
    · rw [if_pos hid] at h
      obtain ⟨h1, h2⟩ : Layer.apply_update hd u :: rest = ls' ∧
          Layer.apply_update hd u = l' := by
        constructor <;> injection h with hh <;> injection hh
      exact ⟨[], hd, rest, rfl, h1.symm ▸ rfl, by simp, hid, h2.symm⟩
    · rw [if_neg hid] at h
      cases hrec : updateLayersFirst layerId u rest with
      | none => rw [hrec] at h; cases h
      | some p =>
        rw [hrec] at h
        simp only [Option.map_some'] at h
        obtain ⟨h1, h2⟩ : hd :: p.1 = ls' ∧ p.2 = l' := by
          injection h with hp
          rw [Prod.ext_iff] at hp
          exact hp
        obtain ⟨pre, layer, post, hls, hls', hpre, hlay, hl'⟩ :=
          ih p.1 p.2 (by rw [hrec])
        refine ⟨hd :: pre, layer, post, by simp [hls], ?_, ?_, hlay, h2 ▸ hl'⟩
        · rw [← h1, hls']
          simp
        · intro x hx
          rcases List.mem_cons.1 hx with rfl | hx'
          · exact hid
          · exact hpre x hx'

/-! ## Buffer-length invariant preservation -/

theorem bufLenOk_of_get (pd : List (String × List Nat)) (l : Layer)
    (buf : List Nat) (h : mapGet pd l.id = some buf)
    (hlen : buf.length = l.width * l.height * 4) : bufLenOk pd l = true := by
  simp [bufLenOk, h, hlen]

theorem bufLenOk_congr (pd pd' : List (String × List Nat)) (l : Layer)
    (h : mapGet pd' l.id = mapGet pd l.id) : bufLenOk pd' l = bufLenOk pd l := by
  rw [bufLenOk, bufLenOk, h]

theorem bufLenOk_spec (pd : List (String × List Nat)) (l : Layer)
    (buf : List Nat) (hOk : bufLenOk pd l = true)
    (h : mapGet pd l.id = some buf) : buf.length = l.width * l.height * 4 := by
  rw [bufLenOk, h] at hOk
  simpa using hOk

theorem create_fst_documents (m : DocumentManager) (docId lid name : String)
    (w h res : Nat) (now : Int) :
    (m.create docId lid name w h res now).1.documents =
      mapInsert m.documents docId (Document.new docId lid name w h res now) := rfl

theorem create_fst_pixel_data (m : DocumentManager) (docId lid name : String)
    (w h res : Nat) (now : Int) :
    (m.create docId lid name w h res now).1.pixel_data =
      mapInsert m.pixel_data lid (List.replicate (w * h * 4) 255) := rfl

theorem set_layer_pixels_pd (m : DocumentManager) (lid : String)
    (px : List Nat) :
    (m.set_layer_pixels lid px).pixel_data = mapInsert m.pixel_data lid px := rfl

theorem bufferInv_create (m : DocumentManager) (docId lid name : String)
    (w h res : Nat) (now : Int) (hInv : bufferInv m)
    (hOk : ∀ p ∈ m.documents, ∀ l ∈ p.2.layers, l.id ≠ lid) :
    bufferInv (m.create docId lid name w h res now).1 := by
  intro p hp l hl
  rw [create_fst_documents] at hp
  rw [create_fst_pixel_data]
  rcases mem_mapInsert hp with rfl | ⟨hpm, _⟩
  · obtain rfl : l = Layer.new_raster lid "Background" w h := by
      simpa [Document.new] using hl
    exact bufLenOk_of_get _ _ _ (mapGet_insert_self _ _ _) (by simp [Layer.new_raster])
  · rw [bufLenOk_congr m.pixel_data _ l
      (mapGet_insert_ne _ _ _ _ (hOk p hpm l hl))]
    exact hInv p hpm l hl

theorem bufferInv_addLayer (m : DocumentManager) (docId lid name : String)
    (now : Int) (hInv : bufferInv m)
    (hOk : ∀ p ∈ m.documents, ∀ l ∈ p.2.layers, l.id ≠ lid) :
    bufferInv (stepOp m (Op.addLayer docId lid name now)) := by
  rw [stepOp]
  cases hdoc : mapGet m.documents docId with
  | none =>
    rw [addLayerCmd, hdoc]
    exact hInv
  | some doc =>
    rw [addLayerCmd, hdoc]
    dsimp only
    rw [DocumentManager.add_layer_to_document, hdoc]
    intro p hp l hl
    rcases mem_mapInsert hp with rfl | ⟨hpm, _⟩
    · dsimp only at hl
      rcases List.mem_append.1 hl with hold | hnew
      · rw [bufLenOk_congr m.pixel_data _ l
          (mapGet_insert_ne _ _ _ _ (hOk _ (mapGet_eq_some_mem hdoc) l hold))]
        exact hInv _ (mapGet_eq_some_mem hdoc) l hold
      · obtain rfl : l = Layer.new_raster lid name doc.width doc.height := by
          simpa using hnew
        exact bufLenOk_of_get _ _ _ (mapGet_insert_self _ _ _)
          (by simp [Layer.new_raster])
    · rw [bufLenOk_congr m.pixel_data _ l
        (mapGet_insert_ne _ _ _ _ (hOk p hpm l hl))]
      exact hInv p hpm l hl

theorem bufferInv_setLayerPixels (m : DocumentManager) (lid : String)
    (px : List Nat) (hInv : bufferInv m)
    (hOk : ∀ p ∈ m.documents, ∀ l ∈ p.2.layers, l.id = lid →
      px.length = l.width * l.height * 4) :
    bufferInv (m.set_layer_pixels lid px) := by
  intro p hp l hl
  rw [set_layer_pixels_pd]
  by_cases hid : l.id = lid
  · refine bufLenOk_of_get _ _ px ?_ (hOk p hp l hl hid)
    rw [hid]
    exact mapGet_insert_self _ _ _
  · rw [bufLenOk_congr m.pixel_data _ l (mapGet_insert_ne _ _ _ _ hid)]
    exact hInv p hp l hl

theorem bufferInv_brushStroke (m : DocumentManager) (docId lid : String)
    (points : List (BrushStrokePoint × (Nat → Nat → ℚ)))
    (s : BrushStrokeSettings) (c : BrushColor) (e : Bool) (now : Int)
    (hInv : bufferInv m) :
    bufferInv (stepOp m (Op.brushStroke docId lid points s c e now)) := by
  rw [stepOp, applyBrushStroke]
  cases hdoc : mapGet m.documents docId with
  | none => exact hInv
  | some doc =>
    dsimp only
    cases hfind : doc.layers.find? (fun l => l.id == lid) with
    | none => exact hInv
    | some layer =>
      dsimp only
      by_cases hlock : layer.locked
      · rw [if_pos hlock]; exact hInv
      · rw [if_neg hlock]
        cases hpix : mapGet m.pixel_data lid with
        | none => exact hInv
        | some pixels =>
          dsimp only
          rw [show mapGet (m.set_layer_pixels lid
            (points.foldl (fun acc pd => applyBrushStamp pd.2 acc layer.width
              layer.height layer.x layer.y pd.1 s c e) pixels)).documents docId =
            some doc from hdoc]
          dsimp only
          intro p hp l hl
          have hplen : (points.foldl (fun acc pd => applyBrushStamp pd.2 acc
              layer.width layer.height layer.x layer.y pd.1 s c e)
              pixels).length = pixels.length :=
            brushStrokeFold_length points pixels layer.width layer.height
              layer.x layer.y s c e
          have hstep : ∀ (l' : Layer), l' ∈ doc.layers ∨ (∃ q ∈ m.documents, l' ∈ q.2.layers) →
              bufLenOk (m.set_layer_pixels lid
                (points.foldl (fun acc pd => applyBrushStamp pd.2 acc layer.width
                  layer.height layer.x layer.y pd.1 s c e) pixels)).pixel_data l' = true := by
            intro l' hl'
            have hInvl' : bufLenOk m.pixel_data l' = true := by
              rcases hl' with hmem | ⟨q, hq, hmem⟩
              · exact hInv _ (mapGet_eq_some_mem hdoc) l' hmem
              · exact hInv q hq l' hmem
            rw [set_layer_pixels_pd]
            by_cases hid : l'.id = lid
            · refine bufLenOk_of_get _ _
                (points.foldl (fun acc pd => applyBrushStamp pd.2 acc layer.width
                  layer.height layer.x layer.y pd.1 s c e) pixels) ?_ ?_
              · rw [hid]
                exact mapGet_insert_self _ _ _
              · rw [hplen]
                exact bufLenOk_spec m.pixel_data l' pixels hInvl' (hid ▸ hpix)
            · rw [bufLenOk_congr m.pixel_data _ l' (mapGet_insert_ne _ _ _ _ hid)]
              exact hInvl'
          rcases mem_mapInsert hp with rfl | ⟨hpm, _⟩
          · exact hstep l (Or.inl hl)
          · exact hstep l (Or.inr ⟨p, hpm, hl⟩)

theorem bufferInv_crop (m : DocumentManager) (docId : String) (x y : Int)
    (w h : Nat) (now : Int) (hInv : bufferInv m)
    (hOk : ∀ doc, mapGet m.documents docId = some doc →
      ∀ p ∈ m.documents, p.1 ≠ docId → ∀ l' ∈ p.2.layers,
        ∀ l ∈ doc.layers, l'.id ≠ l.id) :
    bufferInv (stepOp m (Op.crop docId x y w h now)) := by
  rw [stepOp, cropDocumentCmd]
  by_cases hz : w = 0 ∨ h = 0
  · rw [if_pos hz]; exact hInv
  · rw [if_neg hz, DocumentManager.crop_document]
    cases hdoc : mapGet m.documents docId with
    | none => exact hInv
    | some doc =>
      dsimp only
      intro p hp l hl
      rcases mem_mapInsert hp with rfl | ⟨hpm, hpne⟩
      · dsimp only at hl
        rw [cropFold_layers] at hl
        simp only [List.nil_append, List.mem_map] at hl
        obtain ⟨l0, hl0, rfl⟩ := hl
        rw [bufLenOk]
        cases hget : mapGet (doc.layers.foldl (cropLayerStep x y w h)
            (m.pixel_data, [], [])).1 l0.id with
        | none => rfl
        | some v =>
          rcases cropFold_pixels x y w h doc.layers m.pixel_data [] [] _ _ hget with
            ⟨_, hlen⟩ | ⟨hne, _⟩
          · simpa using hlen
          · exact absurd rfl (hne l0 hl0)
      · rw [bufLenOk]
        cases hget : mapGet (doc.layers.foldl (cropLayerStep x y w h)
            (m.pixel_data, [], [])).1 l.id with
        | none => rfl
        | some v =>
          rcases cropFold_pixels x y w h doc.layers m.pixel_data [] [] _ _ hget with
            ⟨⟨l0, hl0, hid⟩, _⟩ | ⟨_, hold⟩
          · exact absurd hid.symm (hOk doc hdoc p hpm hpne l hl l0 hl0)
          · have := bufLenOk_spec m.pixel_data l v (hInv p hpm l hl) hold
            simpa using this

theorem bufferInv_load (m : DocumentManager) (c : Codec) (a : Archive)
    (now : Int) (hInv : bufferInv m)
    (hOk : OpOk m (Op.loadDrkr c a now)) :
    bufferInv (stepOp m (Op.loadDrkr c a now)) := by
  rw [stepOp]
  cases hread : DrkrReader.read_all c a now with
  | error e => exact hInv
  | ok r =>
    rw [OpOk, hread] at hOk
    obtain ⟨h1, h2⟩ := hOk
    intro p hp l hl
    rw [show (m.register_loaded_document r.1 r.2).documents =
      mapInsert m.documents r.1.id r.1 from rfl] at hp
    rw [show (m.register_loaded_document r.1 r.2).pixel_data =
      r.2.foldl (fun acc q => mapInsert acc q.1 q.2) m.pixel_data from rfl]
    rw [bufLenOk]
    cases hget : mapGet (r.2.foldl (fun acc q => mapInsert acc q.1 q.2)
        m.pixel_data) l.id with
    | none => rfl
    | some v =>
      rcases mapGet_foldl_insert r.2 m.pixel_data l.id v hget with
        hmem | ⟨hkeys, hold⟩
      · rcases mem_mapInsert hp with rfl | ⟨hpm, hpne⟩
        · have := (h1 _ hmem).1 l hl rfl
          simpa using this
        · have := (h1 _ hmem).2 p hpm hpne l hl rfl
          simpa using this
      · rcases mem_mapInsert hp with rfl | ⟨hpm, _⟩
        · rcases h2 l hl with hin | hlen
          · obtain ⟨q, hq, hqid⟩ := List.mem_map.1 hin
            exact absurd hqid (hkeys q hq)
          · simpa using hlen v hold
        · have := bufLenOk_spec m.pixel_data l v (hInv p hpm l hl) hold
          simpa using this

/-- One operation, under its side conditions, preserves the invariant. -/
theorem stepOp_preserves_bufferInv (m : DocumentManager) (op : Op)
    (hInv : bufferInv m) (hOk : OpOk m op) : bufferInv (stepOp m op) := by
  cases op with
  | create docId lid name w h res now =>
    exact bufferInv_create m docId lid name w h res now hInv hOk
  | addLayer docId lid name now =>
    exact bufferInv_addLayer m docId lid name now hInv hOk
  | setLayerPixels lid px =>
    exact bufferInv_setLayerPixels m lid px hInv hOk
  | brushStroke docId lid points s c e now =>
    exact bufferInv_brushStroke m docId lid points s c e now hInv
  | crop docId x y w h now =>
    refine bufferInv_crop m docId x y w h now hInv ?_
    intro doc hdoc
    rw [OpOk, hdoc] at hOk
    exact hOk
  | loadDrkr c a now =>
    exact bufferInv_load m c a now hInv hOk

/-! ## Compositing lemmas -/

theorem blendPixel_eq_amendedSpec (d0 d1 d2 d3 sr sg sb sa : Nat)
    (hd3 : d3 ≤ 255) (hsa : sa ≤ 255) :
    blendPixel d0 d1 d2 d3 sr sg sb sa =
      blendPixelAmendedSpec d0 d1 d2 d3 sr sg sb sa := by
  by_cases h0 : sa = 0
  · simp only [blendPixel, blendPixelAmendedSpec, if_pos h0]
  · have hpos : ¬((sa : ℚ) / 255 + (d3 : ℚ) / 255 * (1 - (sa : ℚ) / 255) ≤ 0) := by
      push_neg
      have h1 : (1 : ℚ) ≤ (sa : ℚ) := by
        exact_mod_cast Nat.one_le_iff_ne_zero.2 h0
      have h2 : (sa : ℚ) ≤ 255 := by exact_mod_cast hsa
      have h3 : (0 : ℚ) ≤ (d3 : ℚ) := by positivity
      have h4 : (d3 : ℚ) ≤ 255 := by exact_mod_cast hd3
      nlinarith
    simp only [blendPixel, blendPixelAmendedSpec, if_neg h0, if_neg hpos]

/-! ## Brush alpha lemmas -/

theorem ite_nonpos_eq_max (a : ℚ) : (if a ≤ 0 then (0 : ℚ) else a) = max a 0 := by
  split
  · next h => rw [max_eq_right h]
  · next h => rw [max_eq_left (le_of_not_le h)]

theorem brushAlpha_eq_max (s : BrushStrokeSettings) (p d : ℚ)
    (hfr : 0 < s.size / 2 - s.size / 2 * (s.hardness / 100))
    (hd : ¬(s.size / 2 < d)) :
    brushAlpha s p d =
      max (if d ≤ s.size / 2 * (s.hardness / 100) then
          s.opacity / 100 * (s.flow / 100) * p
        else
          s.opacity / 100 * (s.flow / 100) * p *
            (1 - (d - s.size / 2 * (s.hardness / 100)) /
              (s.size / 2 - s.size / 2 * (s.hardness / 100))) *
            (1 - (d - s.size / 2 * (s.hardness / 100)) /
              (s.size / 2 - s.size / 2 * (s.hardness / 100)))) 0 := by
  rw [brushAlpha]
  simp only [if_neg hd, if_pos hfr]
  split
  · exact ite_nonpos_eq_max _
  · exact ite_nonpos_eq_max _

theorem brushAlpha_mono (s : BrushStrokeSettings) (p : ℚ)
    (hh0 : 0 ≤ s.hardness) (hh : s.hardness < 100) (hsz : 0 < s.size)
    (d1 d2 : ℚ) (h1 : 0 ≤ d1) (h12 : d1 ≤ d2) (h2r : d2 ≤ s.size / 2) :
    brushAlpha s p d2 ≤ brushAlpha s p d1 := by
  have hrad : 0 < s.size / 2 := by positivity
  have hfr : 0 < s.size / 2 - s.size / 2 * (s.hardness / 100) := by nlinarith
  rw [brushAlpha_eq_max s p d2 hfr (not_lt.2 h2r),
    brushAlpha_eq_max s p d1 hfr (not_lt.2 (h12.trans h2r))]
  set B := s.opacity / 100 * (s.flow / 100) * p with hB
  set inner := s.size / 2 * (s.hardness / 100) with hinner
  by_cases hb : B ≤ 0
  · have hall : ∀ d : ℚ,
        (if d ≤ inner then B
          else B * (1 - (d - inner) / (s.size / 2 - inner)) *
            (1 - (d - inner) / (s.size / 2 - inner))) ≤ 0 := by
      intro d
      split
      · exact hb
      · have hsq := mul_self_nonneg (1 - (d - inner) / (s.size / 2 - inner))
        nlinarith
    rw [max_eq_right (hall d2), max_eq_right (hall d1)]
  · push_neg at hb
    apply max_le_max _ (le_refl (0 : ℚ))
    by_cases hd2 : d2 ≤ inner
    · rw [if_pos hd2, if_pos (h12.trans hd2)]
    · push_neg at hd2
      rw [if_neg (not_le.2 hd2)]
      have hF2a : 0 ≤ 1 - (d2 - inner) / (s.size / 2 - inner) := by
        have hle : (d2 - inner) / (s.size / 2 - inner) ≤ 1 := by
          rw [div_le_one hfr]
          linarith
        linarith
      have hF2b : 1 - (d2 - inner) / (s.size / 2 - inner) ≤ 1 := by
        have hge : 0 ≤ (d2 - inner) / (s.size / 2 - inner) :=
          div_nonneg (by linarith) (le_of_lt hfr)
        linarith
      by_cases hd1 : d1 ≤ inner
      · rw [if_pos hd1]
        have hBF2 : 0 ≤ B * (1 - (d2 - inner) / (s.size / 2 - inner)) :=
          mul_nonneg (le_of_lt hb) hF2a
        exact le_trans (mul_le_of_le_one_right hBF2 hF2b)
          (mul_le_of_le_one_right (le_of_lt hb) hF2b)
      · push_neg at hd1
        rw [if_neg (not_le.2 hd1)]
        have hF12 : 1 - (d2 - inner) / (s.size / 2 - inner) ≤
            1 - (d1 - inner) / (s.size / 2 - inner) := by
          have hd12 : (d1 - inner) / (s.size / 2 - inner) ≤
              (d2 - inner) / (s.size / 2 - inner) :=
            (div_le_div_iff_of_pos_right hfr).2 (by linarith)
          linarith
        have hF1a : 0 ≤ 1 - (d1 - inner) / (s.size / 2 - inner) :=
          le_trans hF2a hF12
        nlinarith [mul_nonneg (le_of_lt hb) (mul_nonneg hF2a hF2a),
          mul_nonneg (mul_nonneg (le_of_lt hb) (sub_nonneg.2 hF12))
            (by linarith : (0 : ℚ) ≤ (1 - (d1 - inner) / (s.size / 2 - inner)) +
              (1 - (d2 - inner) / (s.size / 2 - inner)))]

theorem brushAlpha_zero_beyond (s : BrushStrokeSettings) (p d : ℚ)
    (hd : s.size / 2 < d) : brushAlpha s p d = 0 := by
  rw [brushAlpha]
  simp only [if_pos hd]

theorem f64ToU8_eq (q : ℚ) (n : Nat) (hn : n ≤ 255) (h1 : (n : ℚ) ≤ q)
    (h2 : q < (n : ℚ) + 1) : f64ToU8 q = n := by
  have hf : ⌊q⌋ = (n : Int) := by
    rw [Int.floor_eq_iff]
    constructor
    · exact_mod_cast h1
    · push_cast
      exact h2
  rw [f64ToU8, hf, max_eq_left (by positivity), min_eq_left (by exact_mod_cast hn)]
  simp

theorem u8Round_eq (q : ℚ) (n : Nat) (hn : n ≤ 255)
    (h1 : (n : ℚ) ≤ q + 1 / 2) (h2 : q + 1 / 2 < (n : ℚ) + 1) :
    u8Round q = n := by
  have hf : round q = (n : Int) := by
    rw [round_eq, Int.floor_eq_iff]
    constructor
    · exact_mod_cast h1
    · push_cast
      exact h2
  rw [u8Round, hf, max_eq_left (by positivity), min_eq_left (by exact_mod_cast hn)]
  simp

/-! ## Claim theorems -/

/-- C1 (code bug evaluation): crop-then-inverse-expand does *not* reproduce
the original buffer.  On a 1×1 document whose only (in-bounds) pixel is
`(255,255,255,255)`, `crop(-1,-1,2,2)` followed by the inverse
`crop(1,1,1,1)` back to the original 1×1 canvas leaves the buffer fully
transparent `(0,0,0,0)` instead of restoring it: `crop_document` bakes each
buffer to the new canvas origin but *also* shifts `layer.x/y` by `-crop`,
so the second crop samples doubly-shifted coordinates. -/
theorem c1_crop_roundtrip_failing_input :
    ((cropDocumentCmd c1Manager "doc" (-1) (-1) 2 2 1).bind (fun p =>
      (cropDocumentCmd p.1 "doc" 1 1 1 1 2).map (fun q =>
        mapGet q.1.pixel_data "bg"))) = .ok (some [0, 0, 0, 0]) ∧
    mapGet c1Manager.pixel_data "bg" = some [255, 255, 255, 255] :=
  ⟨rfl, rfl⟩

/-- C3 (counterexample): at destination pixel `(255,255,255,128)` and
source `(0,0,0,128)`, `blend_pixel` yields `(84,84,84,191)` while the
claimed rounded formula yields `(85,85,85,192)` — the code truncates the
8-bit conversion instead of rounding it; and at destination `(1,2,3,0)`
with source alpha 0 the code leaves the destination unchanged while the
claim's `out_a = 0` clause demands `(0,0,0,0)`. -/
theorem c3_counterexample :
    blendPixel 255 255 255 128 0 0 0 128 ≠
      blendPixelSpec 255 255 255 128 0 0 0 128 ∧
    blendPixel 1 2 3 0 9 9 9 0 ≠ blendPixelSpec 1 2 3 0 9 9 9 0 := by
  have hc1 : ¬((128 : Nat) = 0) := by norm_num
  have hc2 : ¬(((128 : Nat) : ℚ) / 255 +
      ((128 : Nat) : ℚ) / 255 * (1 - ((128 : Nat) : ℚ) / 255) ≤ 0) := by
    push_cast
    norm_num
  have hL : blendPixel 255 255 255 128 0 0 0 128 = (84, 84, 84, 191) := by
    simp only [blendPixel, if_neg hc1, if_neg hc2, Prod.mk.injEq]
    refine ⟨?_, ?_, ?_, ?_⟩ <;> (apply f64ToU8_eq <;> (push_cast; try norm_num))
  have hR : blendPixelSpec 255 255 255 128 0 0 0 128 = (85, 85, 85, 192) := by
    have hc3 : ¬(((128 : Nat) : ℚ) / 255 +
        ((128 : Nat) : ℚ) / 255 * (1 - ((128 : Nat) : ℚ) / 255) = 0) := by
      push_cast
      norm_num
    simp only [blendPixelSpec, if_neg hc3, Prod.mk.injEq]
    refine ⟨?_, ?_, ?_, ?_⟩ <;> (apply u8Round_eq <;> (push_cast; try norm_num))
  have hz : blendPixelSpec 1 2 3 0 9 9 9 0 = (0, 0, 0, 0) := by
    have hc4 : ((0 : Nat) : ℚ) / 255 +
        ((0 : Nat) : ℚ) / 255 * (1 - ((0 : Nat) : ℚ) / 255) = 0 := by
      push_cast
      norm_num
    simp only [blendPixelSpec, if_pos hc4]
  constructor
  · rw [hL, hR]
    decide
  · rw [show blendPixel 1 2 3 0 9 9 9 0 = (1, 2, 3, 0) from rfl, hz]
    decide

/-- C3 (amended): for u8 inputs, `blend_pixel` computes exactly the
Porter-Duff source-over formulas of the claim, except that the final 8-bit
conversion truncates (floors) after clamping rather than rounding, and a
source with `src_a = 0` returns the destination unchanged (in particular,
when `out_a = 0` the destination's colour bytes are kept rather than
zeroed). -/
theorem c3_blend_pixel_amended (d0 d1 d2 d3 sr sg sb sa : Nat)
    (hd3 : d3 ≤ 255) (hsa : sa ≤ 255) :
    blendPixel d0 d1 d2 d3 sr sg sb sa =
      blendPixelAmendedSpec d0 d1 d2 d3 sr sg sb sa :=
  blendPixel_eq_amendedSpec d0 d1 d2 d3 sr sg sb sa hd3 hsa

/-- Witness for C3's amended theorem at a concrete pixel pair. -/
theorem c3_blend_pixel_amended_witness :
    (40 : Nat) ≤ 255 ∧ (80 : Nat) ≤ 255 ∧
    blendPixel 10 20 30 40 50 60 70 80 =
      blendPixelAmendedSpec 10 20 30 40 50 60 70 80 :=
  ⟨by decide, by decide,
    c3_blend_pixel_amended 10 20 30 40 50 60 70 80 (by decide) (by decide)⟩

/-- C4 (counterexample): an archive whose mimetype entry is
`"application/x-drkr\n"` — not exactly `application/x-drkr` — passes
validation (the reader compares after `.trim()`) and `read_all` produces a
document instead of failing. -/
theorem c4_counterexample :
    c4Archive.mimetype ≠ DRKR_MIMETYPE ∧
    DrkrReader.validate c4Archive = .ok () ∧
    DrkrReader.read_all idCodec c4Archive 7 =
      .ok ({ id := "doc", name := "N", width := 1, height := 1
             resolution := 72, layers := [], created_at := 7
             modified_at := 7, source_path := none }, []) :=
  ⟨by decide, rfl, rfl⟩

/-- C4 (amended): an archive whose mimetype entry differs from
`application/x-drkr` *after whitespace trimming*, or whose manifest major
version exceeds 1, fails validation with an `InvalidOperation` format
error, and `read_all` never produces a document for it. -/
theorem c4_validate_rejects (a : Archive)
    (h : rustTrim a.mimetype ≠ DRKR_MIMETYPE ∨
      1 < majorVersionOf a.manifest.drkr_version) :
    (∃ msg, DrkrReader.validate a = .error (.invalidOperation msg)) ∧
    ∀ (c : Codec) (now : Int) r, DrkrReader.read_all c a now ≠ .ok r := by
  have hval : ∃ msg, DrkrReader.validate a = .error (.invalidOperation msg) := by
    by_cases hmt : rustTrim a.mimetype ≠ DRKR_MIMETYPE
    · exact ⟨"Invalid DRKR file: expected mimetype '" ++ DRKR_MIMETYPE ++
        "', got '" ++ rustTrim a.mimetype ++ "'",
        by rw [DrkrReader.validate, if_pos hmt]⟩
    · rcases h with h | h
      · exact absurd h hmt
      · exact ⟨"Unsupported DRKR version: " ++ a.manifest.drkr_version,
          by rw [DrkrReader.validate, if_neg hmt, if_pos h]⟩
  obtain ⟨msg, hmsg⟩ := hval
  refine ⟨⟨msg, hmsg⟩, ?_⟩
  intro c now r hcon
  rw [DrkrReader.read_all, hmsg] at hcon
  exact Except.noConfusion hcon

/-- Witness for C4's amended theorem on an archive with a wrong mimetype. -/
theorem c4_validate_rejects_witness :
    (∃ msg, DrkrReader.validate c4BadArchive = .error (.invalidOperation msg)) ∧
    ∀ (c : Codec) (now : Int) r,
      DrkrReader.read_all c c4BadArchive now ≠ .ok r :=
  c4_validate_rejects c4BadArchive (Or.inl (by decide))

/-- C5: `crop_layer_pixels` produces a `new_width*new_height*4` buffer in
which destination pixel `(nx, ny)`'s channel `k` equals the old buffer's
byte at source coordinate `(crop_x+nx-layer_x, crop_y+ny-layer_y)` when
that coordinate lies within the old `old_width×old_height` bounds, and 0
(transparent) otherwise — assuming the old buffer has its declared
`old_width*old_height*4` size. -/
theorem c5_crop_layer_pixels_spec (old_pixels : List Nat) (ow oh : Nat)
    (lx ly cx cy : Int) (nw nh : Nat)
    (hlen : old_pixels.length = ow * oh * 4) :
    (cropLayerPixels old_pixels ow oh lx ly cx cy nw nh).length = nw * nh * 4 ∧
    ∀ nx ny k, nx < nw → ny < nh → k < 4 →
      (cropLayerPixels old_pixels ow oh lx ly cx cy nw nh).getD
          ((ny * nw + nx) * 4 + k) 0 =
        if 0 ≤ cx + (nx : Int) - lx ∧ cx + (nx : Int) - lx < (ow : Int) ∧
            0 ≤ cy + (ny : Int) - ly ∧ cy + (ny : Int) - ly < (oh : Int) then
          old_pixels.getD
            (((cy + (ny : Int) - ly).toNat * ow +
              (cx + (nx : Int) - lx).toNat) * 4 + k) 0
        else 0 :=
  ⟨cropLayerPixels_length old_pixels ow oh lx ly cx cy nw nh,
    fun nx ny k hx hy hk =>
      cropLayerPixels_getD old_pixels ow oh lx ly cx cy nw nh hlen
        nx ny k hx hy hk⟩

/-- Witness for C5: expanding a 1×1 buffer `[9,9,9,9]` by one pixel in each
direction puts the old pixel at destination `(1,1)` and leaves `(0,0)`
transparent. -/
theorem c5_crop_layer_pixels_witness :
    (cropLayerPixels [9, 9, 9, 9] 1 1 0 0 (-1) (-1) 2 2).getD
      ((1 * 2 + 1) * 4 + 0) 0 = 9 ∧
    (cropLayerPixels [9, 9, 9, 9] 1 1 0 0 (-1) (-1) 2 2).getD
      ((0 * 2 + 0) * 4 + 0) 0 = 0 := by
  have h := (c5_crop_layer_pixels_spec [9, 9, 9, 9] 1 1 0 0 (-1) (-1) 2 2 rfl).2
  have h11 := h 1 1 0 (by decide) (by decide) (by decide)
  have h00 := h 0 0 0 (by decide) (by decide) (by decide)
  rw [h11, h00]
  exact ⟨by decide, by decide⟩

/-- C10: when the manifest `drkr_version`'s major component does not parse
as a `u32` (for example `"abc.1"` or the empty string), validation treats
the major version as 0 and accepts the archive. -/
theorem c10_unparsable_major_accepted (a : Archive)
    (hmt : rustTrim a.mimetype = DRKR_MIMETYPE)
    (hp : parseU32 (majorComponent a.manifest.drkr_version) = none) :
    majorVersionOf a.manifest.drkr_version = 0 ∧
    DrkrReader.validate a = .ok () := by
  have hmaj : majorVersionOf a.manifest.drkr_version = 0 := by
    rw [majorVersionOf, hp]
    rfl
  refine ⟨hmaj, ?_⟩
  rw [DrkrReader.validate, if_neg (fun hne => hne hmt), if_neg (by rw [hmaj]; decide)]

/-- Witness for C10 on `"abc.1"` and on the empty version string. -/
theorem c10_unparsable_major_accepted_witness :
    (majorVersionOf c10Archive.manifest.drkr_version = 0 ∧
      DrkrReader.validate c10Archive = .ok ()) ∧
    (majorVersionOf c10ArchiveEmpty.manifest.drkr_version = 0 ∧
      DrkrReader.validate c10ArchiveEmpty = .ok ()) :=
  ⟨c10_unparsable_major_accepted c10Archive (by decide) (by decide),
    c10_unparsable_major_accepted c10ArchiveEmpty (by decide) (by decide)⟩

/-- C6 (counterexample): the invariant is *not* maintained after every
operation sequence: `set_layer_pixels` stores any buffer unvalidated, so
creating a 1×1 document and storing a 1-byte buffer for its background
layer leaves a buffer of length 1 ≠ 1·1·4. -/
theorem c6_counterexample :
    ¬ bufferInv (runOps DocumentManager.new
      [Op.create "d" "l" "Doc" 1 1 72 0, Op.setLayerPixels "l" [7]]) := by
  decide

/-- C6 (amended): starting from a state satisfying the buffer-length
invariant, the invariant is preserved by every sequence of core operations
provided each operation satisfies its `OpOk` side condition, namely:
(1) every freshly generated layer id (create / add_layer) collides with no
layer of any open document; (2) every `set_layer_pixels` call (raw or
base64) supplies a buffer whose length is `width*height*4` for every open
layer carrying the target id; (3) a cropped document shares no layer id
with a different open document; (4) every DRKR-loaded pixel entry's length
is `width*height*4` for every layer carrying its id — in the loaded
document and in every other open document — and every loaded layer without
a pixel entry has no previously stored buffer of a different size under
its id.  The conditions range over all open documents because the pixel
store is keyed by layer id alone; with UUID ids the cross-document cases
hold vacuously, and brush strokes need no condition at all. -/
theorem c6_buffer_invariant (m : DocumentManager) (ops : List Op)
    (hInv : bufferInv m) (hOk : OpsOk m ops) : bufferInv (runOps m ops) := by
  induction ops generalizing m with
  | nil => exact hInv
  | cons op rest ih =>
    obtain ⟨h1, h2⟩ := hOk
    exact ih (stepOp m op) (stepOp_preserves_bufferInv m op hInv h1) h2

/-- Witness for C6: a create followed by a correctly-sized
`set_layer_pixels` keeps the invariant. -/
theorem c6_buffer_invariant_witness :
    bufferInv (runOps DocumentManager.new
      [Op.create "d" "l" "Doc" 1 1 72 0,
        Op.setLayerPixels "l" (List.replicate 4 9)]) :=
  c6_buffer_invariant DocumentManager.new
    [Op.create "d" "l" "Doc" 1 1 72 0,
      Op.setLayerPixels "l" (List.replicate 4 9)]
    (by decide) (by decide)

/-- C7: for hardness < 100 (with nonnegative hardness and positive size),
the effective brush-stamp alpha is non-increasing in the distance `d` from
the stamp centre over `[0, radius]` with `radius = size/2`, and exactly 0
for every `d` beyond the radius. -/
theorem c7_brush_alpha_monotone (s : BrushStrokeSettings) (p : ℚ)
    (hh0 : 0 ≤ s.hardness) (hh : s.hardness < 100) (hsz : 0 < s.size) :
    (∀ d1 d2 : ℚ, 0 ≤ d1 → d1 ≤ d2 → d2 ≤ s.size / 2 →
      brushAlpha s p d2 ≤ brushAlpha s p d1) ∧
    (∀ d : ℚ, s.size / 2 < d → brushAlpha s p d = 0) :=
  ⟨fun d1 d2 h1 h12 h2r => brushAlpha_mono s p hh0 hh hsz d1 d2 h1 h12 h2r,
    fun d hd => brushAlpha_zero_beyond s p d hd⟩

/-- Witness for C7 with size 4, hardness 50: alpha at distance 2 is at most
alpha at distance 1, and alpha at distance 3 is 0. -/
theorem c7_brush_alpha_monotone_witness :
    brushAlpha c7Settings 1 2 ≤ brushAlpha c7Settings 1 1 ∧
    brushAlpha c7Settings 1 3 = 0 := by
  have h := c7_brush_alpha_monotone c7Settings 1
    (by norm_num [c7Settings]) (by norm_num [c7Settings]) (by norm_num [c7Settings])
  exact ⟨h.1 1 2 (by norm_num) (by norm_num) (by norm_num [c7Settings]),
    h.2 3 (by norm_num [c7Settings])⟩

/-- C8: when no pixel buffer is stored under a layer id, both
`get_layer_pixels` and `get_layer_pixels_base64` fail with `LayerNotFound`
— the lookup is keyed only by the pixel store, regardless of whether a
layer record with that id exists in any open document. -/
theorem c8_get_pixels_missing_buffer (m : DocumentManager) (lid : String)
    (h : mapGet m.pixel_data lid = none) :
    getLayerPixelsCmd m lid = .error (.layerNotFound lid) ∧
    getLayerPixelsBase64Cmd m lid = .error (.layerNotFound lid) := by
  rw [getLayerPixelsCmd, getLayerPixelsBase64Cmd,
    DocumentManager.get_layer_pixels, h]
  exact ⟨rfl, rfl⟩

/-- Witness for C8: the layer `"l"` exists in an open document of
`c8Manager` but has no stored buffer; both reads fail with
`LayerNotFound`. -/
theorem c8_get_pixels_missing_buffer_witness :
    (∃ p ∈ c8Manager.documents, ∃ l ∈ p.2.layers, l.id = "l") ∧
    getLayerPixelsCmd c8Manager "l" = .error (.layerNotFound "l") ∧
    getLayerPixelsBase64Cmd c8Manager "l" = .error (.layerNotFound "l") :=
  ⟨by decide, c8_get_pixels_missing_buffer c8Manager "l" rfl⟩

/-- C9: a successful `update_layer` changes exactly the first layer whose
id matches, and on that layer exactly the fields present in the patch (a
present opacity stored as `min(value, 100)`); all other layers, the layer
order, the canvas dimensions, every other document field including
`modified_at`, the other documents, and the whole pixel store are
unchanged. -/
theorem c9_update_layer_frame (m : DocumentManager) (docId lid : String)
    (u : LayerUpdate) (m' : DocumentManager) (l' : Layer)
    (h : updateLayerCmd m docId lid u = .ok (m', l')) :
    m'.pixel_data = m.pixel_data ∧
    (∀ k, k ≠ docId → mapGet m'.documents k = mapGet m.documents k) ∧
    ∃ doc pre layer post,
      mapGet m.documents docId = some doc ∧
      mapGet m'.documents docId = some { doc with layers := pre ++ l' :: post } ∧
      doc.layers = pre ++ layer :: post ∧
      (∀ x ∈ pre, x.id ≠ lid) ∧ layer.id = lid ∧
      l' = Layer.apply_update layer u ∧
      l'.id = layer.id ∧ l'.width = layer.width ∧ l'.height = layer.height ∧
      l'.name = u.name.getD layer.name ∧
      l'.visible = u.visible.getD layer.visible ∧
      l'.locked = u.locked.getD layer.locked ∧
      l'.opacity = (u.opacity.map (fun o => min o 100)).getD layer.opacity ∧
      l'.blend_mode = u.blend_mode.getD layer.blend_mode ∧
      l'.x = u.x.getD layer.x ∧ l'.y = u.y.getD layer.y := by
  rw [updateLayerCmd] at h
  cases hdoc : mapGet m.documents docId with
  | none => rw [hdoc] at h; cases h
  | some doc =>
    rw [hdoc] at h
    dsimp only at h
    cases hupd : updateLayersFirst lid u doc.layers with
    | none => rw [hupd] at h; cases h
    | some p =>
      rw [hupd] at h
      obtain ⟨hm', hl'⟩ : ({ m with documents := mapInsert m.documents docId ({ doc with layers := p.1 }) } : DocumentManager) = m' ∧ p.2 = l' := by
        injection h with hp
        rw [Prod.ext_iff] at hp
        exact hp
      obtain ⟨pre, layer, post, hls, hls', hpre, hlay, hpl⟩ :=
        updateLayersFirst_spec lid u doc.layers p.1 p.2 hupd
      subst hm'
      subst hl'
      refine ⟨rfl, fun k hk => mapGet_insert_ne _ _ _ _ hk, doc, pre, layer,
        post, rfl, ?_, hls, hpre, hlay, hpl, ?_⟩
      · rw [show ({ m with documents := mapInsert m.documents docId ({ doc with layers := p.1 }) } : DocumentManager).documents = mapInsert m.documents docId ({ doc with layers := p.1 }) from rfl]
        rw [mapGet_insert_self, hls', hpl]
      · rw [hpl]
        refine ⟨rfl, rfl, rfl, ?_, ?_, ?_, ?_, ?_, ?_, ?_⟩ <;>
          (rw [Layer.apply_update]) <;>
          first
          | (cases u.name <;> rfl)
          | (cases u.visible <;> rfl)
          | (cases u.locked <;> rfl)
          | (cases u.opacity <;> rfl)
          | (cases u.blend_mode <;> rfl)
          | (cases u.x <;> rfl)
          | (cases u.y <;> rfl)

/-- Witness for C9: patching opacity 250 (clamped to 100) and x := −7 on a
concrete document. -/
theorem c9_update_layer_frame_witness :
    c9M2.pixel_data = c9M.pixel_data ∧
    (∀ k, k ≠ "d" → mapGet c9M2.documents k = mapGet c9M.documents k) ∧
    ∃ doc pre layer post,
      mapGet c9M.documents "d" = some doc ∧
      mapGet c9M2.documents "d" = some { doc with layers := pre ++ c9L :: post } ∧
      doc.layers = pre ++ layer :: post ∧
      (∀ x ∈ pre, x.id ≠ "l") ∧ layer.id = "l" ∧
      c9L = Layer.apply_update layer c9U ∧
      c9L.id = layer.id ∧ c9L.width = layer.width ∧ c9L.height = layer.height ∧
      c9L.name = c9U.name.getD layer.name ∧
      c9L.visible = c9U.visible.getD layer.visible ∧
      c9L.locked = c9U.locked.getD layer.locked ∧
      c9L.opacity = (c9U.opacity.map (fun o => min o 100)).getD layer.opacity ∧
      c9L.blend_mode = c9U.blend_mode.getD layer.blend_mode ∧
      c9L.x = c9U.x.getD layer.x ∧ c9L.y = c9U.y.getD layer.y :=
  c9_update_layer_frame c9M "d" "l" c9U c9M2 c9L rfl

/-- C2: writing a document (raster layers with distinct ids, arbitrary
opacity / blend mode / position including negative x/y, a correctly-sized
buffer for every layer) to a DRKR archive and reading it back reproduces
the canvas dimensions, the layer count and order, every layer metadata
field (the whole `Layer` record), and every pixel buffer byte-exactly when
the pixel codec is lossless. -/
theorem c2_drkr_roundtrip (c : Codec) (hc : c.Lossless) (doc : Document)
    (store : List (String × List Nat)) (nowStr : String) (now : Int)
    (hids : (doc.layers.map Layer.id).Nodup)
    (htype : ∀ l ∈ doc.layers, l.layer_type = LayerType.raster)
    (hbuf : ∀ l ∈ doc.layers, ∃ px, mapGet store l.id = some px ∧
      px.length = l.width * l.height * 4) :
    ∃ a r, DrkrWriter.write_document c doc store nowStr = .ok a ∧
      DrkrReader.read_all c a now = .ok r ∧
      r.1.width = doc.width ∧ r.1.height = doc.height ∧
      r.1.layers = doc.layers ∧
      ∀ l ∈ doc.layers, mapGet r.2 l.id = mapGet store l.id := by
  have hcomp : compositeOk doc store = true := by
    rw [compositeOk, List.all_eq_true]
    intro l hl
    obtain ⟨px, hpx, hlen⟩ := hbuf l hl
    simp [hpx, hlen]
  have hw := writeLayers_ok c store doc.layers hbuf
  have hwrite : DrkrWriter.write_document c doc store nowStr = .ok
      { mimetype := DRKR_MIMETYPE
        manifest :=
          { drkr_version := DRKR_VERSION
            generator :=
              { name := "Darker"
                version := cargoPkgVersion
                url := some "https://github.com/darker" }
            created_at := nowStr
            modified_at := nowStr
            files := none
            extensions_used := none }
        document := DrkrDocument.from_document doc
        layerMetas := doc.layers.map (fun l => (l.id, DrkrLayerMeta.from_layer l))
        layerPixels := doc.layers.map (fun l =>
          (l.id, c.encode ((mapGet store l.id).getD []) l.width l.height)) } := by
    rw [DrkrWriter.write_document, if_pos hcomp, hw]
    rfl
  set a : Archive :=
    { mimetype := DRKR_MIMETYPE
      manifest :=
        { drkr_version := DRKR_VERSION
          generator :=
            { name := "Darker"
              version := cargoPkgVersion
              url := some "https://github.com/darker" }
          created_at := nowStr
          modified_at := nowStr
          files := none
          extensions_used := none }
      document := DrkrDocument.from_document doc
      layerMetas := doc.layers.map (fun l => (l.id, DrkrLayerMeta.from_layer l))
      layerPixels := doc.layers.map (fun l =>
        (l.id, c.encode ((mapGet store l.id).getD []) l.width l.height)) }
    with ha
  have hval : DrkrReader.validate a = .ok () := rfl
  have hrl : readLayers c a a.document.layers = .ok (doc.layers,
      doc.layers.map (fun l => (l.id, (mapGet store l.id).getD []))) := by
    have hmeta : ∀ l ∈ doc.layers,
        mapGet a.layerMetas l.id = some (DrkrLayerMeta.from_layer l) :=
      fun l hl => mapGet_map_key doc.layers _ hids l hl
    have hpix : ∀ l ∈ doc.layers, ∃ payload,
        mapGet a.layerPixels l.id = some payload ∧
        c.decode payload = some ((mapGet store l.id).getD []) := by
      intro l hl
      obtain ⟨px, hpx, hlen⟩ := hbuf l hl
      refine ⟨c.encode ((mapGet store l.id).getD []) l.width l.height,
        mapGet_map_key doc.layers _ hids l hl, ?_⟩
      rw [hpx]
      exact hc px l.width l.height hlen
    have := readLayers_roundtrip c a
      (fun l => (mapGet store l.id).getD []) doc.layers hmeta htype hpix
    rw [show a.document.layers = doc.layers.map (fun l =>
      { id := l.id, layer_type := layerTypeToString l.layer_type,
        adjustment_id := none }) from rfl]
    exact this
  have hread : DrkrReader.read_all c a now = .ok
      ({ id := a.document.id
         name := a.document.name
         width := a.document.width
         height := a.document.height
         resolution := match a.document.resolution with
           | some res => res.value
           | none => 72
         layers := doc.layers
         created_at := now
         modified_at := now
         source_path := none },
        doc.layers.map (fun l => (l.id, (mapGet store l.id).getD []))) := by
    rw [DrkrReader.read_all, hval, hrl]
    rfl
  refine ⟨a, _, hwrite, hread, rfl, rfl, rfl, ?_⟩
  intro l hl
  rw [show mapGet (doc.layers.map (fun l =>
    (l.id, (mapGet store l.id).getD []))) l.id =
    some ((mapGet store l.id).getD []) from
    mapGet_map_key doc.layers _ hids l hl]
  obtain ⟨px, hpx, _⟩ := hbuf l hl
  rw [hpx]
  rfl

/-- Witness for C2: a 2×2 document with two 1×1/2×1 raster layers of
varied opacity, blend mode and negative position round-trips through the
(lossless) identity codec. -/
theorem c2_drkr_roundtrip_witness :
    ∃ a r, DrkrWriter.write_document idCodec c2Doc c2Store "t" = .ok a ∧
      DrkrReader.read_all idCodec a 9 = .ok r ∧
      r.1.width = c2Doc.width ∧ r.1.height = c2Doc.height ∧
      r.1.layers = c2Doc.layers ∧
      ∀ l ∈ c2Doc.layers, mapGet r.2 l.id = mapGet c2Store l.id := by
  refine c2_drkr_roundtrip idCodec (fun px w h _ => rfl) c2Doc c2Store "t" 9
    (by decide) (by decide) ?_
  intro l hl
  rw [show c2Doc.layers = [c2LayerA, c2LayerB] from rfl] at hl
  rcases List.mem_cons.1 hl with rfl | hl'
  · exact ⟨[1, 2, 3, 4], rfl, rfl⟩
  · rcases List.mem_cons.1 hl' with rfl | hl''
    · exact ⟨[5, 6, 7, 8, 9, 10, 11, 12], rfl, rfl⟩
    · cases hl''

end Drkr
